import Mathlib

/-!
PDR construction in `pfcpiface/parse-pdr.go`.

A shallow embedding of the two methods of `parse-pdr.go`, `(*pdr).parsePDI` and
`(*pdr).parsePDR`, and theorems about them.

* The receiver `p *pdr` is mutated in place by the Go code; here every function takes the
  rule and returns the rule it leaves behind, together with the returned `error`.
* `log.Fatalln` ends the process, which is the outcome `Outcome.fatal`.
* A run-time panic in `ip2int` ends the call with the rule as written so far, which is
  the outcome `Outcome.panicked`.
* The decoding of information elements is done by the library `go-pfcp`; an element is
  modelled by its type tag together with what its accessor returns (`none` when the
  accessor returns an error).
* Identifiers that `parse-pdr.go` uses but does not declare (`access`, `core`,
  `reservedProto`, `ip2int`, `ipMask2int`, `parseFlowDesc`) and the standard-library
  method `net.IP.String` are the fields of `Env`.
-/

namespace ParsePdr

/-! ## Data model -/

/-- The struct `pdr` (lines 13-38): a value and a mask per matching dimension, followed by
the attributes that are not matched on. -/
structure Pdr where
  srcIface : Nat
  tunnelIP4Dst : Nat
  tunnelTEID : Nat
  srcIP : Nat
  dstIP : Nat
  srcPort : Nat
  dstPort : Nat
  proto : Nat
  srcIfaceMask : Nat
  tunnelIP4DstMask : Nat
  tunnelTEIDMask : Nat
  srcIPMask : Nat
  dstIPMask : Nat
  srcPortMask : Nat
  dstPortMask : Nat
  protoMask : Nat
  precedence : Nat
  pdrID : Nat
  fseID : Nat
  ctrID : Nat
  farID : Nat
  needDecap : Nat
  deriving DecidableEq

/-- The zero value of `pdr`, as produced by the Go declaration `var p pdr`. -/
def Pdr.zero : Pdr :=
  { srcIface := 0, tunnelIP4Dst := 0, tunnelTEID := 0, srcIP := 0, dstIP := 0,
    srcPort := 0, dstPort := 0, proto := 0, srcIfaceMask := 0, tunnelIP4DstMask := 0,
    tunnelTEIDMask := 0, srcIPMask := 0, dstIPMask := 0, srcPortMask := 0,
    dstPortMask := 0, protoMask := 0, precedence := 0, pdrID := 0, fseID := 0,
    ctrID := 0, farID := 0, needDecap := 0 }

/-- A `net.IPNet`: an address and a mask, both byte slices. -/
structure IPNet where
  IP : List Nat
  Mask : List Nat
  deriving DecidableEq

/-- The part of `endpoint` that `parse-pdr.go` reads: `ipf.src.IPNet`, `ipf.dst.IPNet`. -/
structure Endpoint where
  IPNet : IPNet
  deriving DecidableEq

/-- The fields of `ipFilterRule` that `parse-pdr.go` reads.  The pointers `src.IPNet` and
`dst.IPNet` of a rule that `parseFlowDesc` has filled in without error are taken to be
set. -/
structure IpFilterRule where
  direction : String
  proto : Nat
  src : Endpoint
  dst : Endpoint
  deriving DecidableEq

/-- A registry record `appPFD`: the fields `appID` and `flowDescs`. -/
structure AppPFD where
  appID : String
  flowDescs : List String
  deriving DecidableEq

/-- What `(*ie.IE).UEIPAddress` returns, as far as it is read here. -/
structure UEIPAddressFields where
  IPv4Address : List Nat
  deriving DecidableEq

/-- What `(*ie.IE).FTEID` returns, as far as it is read here. -/
structure FTEIDFields where
  TEID : Nat
  IPv4Address : List Nat
  deriving DecidableEq

/-- What `(*ie.IE).SDFFilter` returns, as far as it is read here. -/
structure SDFFilterFields where
  FlowDescription : String
  deriving DecidableEq

/-- One element of the PDI: the constructor is `pdiIE.Type`, the argument is the result of
the accessor of that type (`none` when it returns an error).  Types that neither loop of
`parsePDI` has a case for are `other`. -/
inductive PdiIE where
  | ueIPAddress (dec : Option UEIPAddressFields)
  | sourceInterface (dec : Option Nat)
  | fteid (dec : Option FTEIDFields)
  | qfi
  | applicationID (dec : Option String)
  | sdfFilter (dec : Option SDFFilterFields)
  | other (typ : Nat)
  deriving DecidableEq

/-- The PDR element handed to `parsePDR`: the result of each accessor called on it.
`OuterHeaderRemovalDescription` is `some res` when the accessor returns `res` with a nil
error. -/
structure PdrIE where
  PDRID : Option Nat
  Precedence : Option Nat
  PDI : Option (List PdiIE)
  OuterHeaderRemovalDescription : Option Nat
  FARID : Option Nat

/-- Go `error` values: `errBadFilterDesc`, and any other non-nil error. -/
inductive GoError where
  | errBadFilterDesc
  | other (code : Nat)
  deriving DecidableEq

/-- How a call ends: it returns, leaving the rule `p` and the error `err` (`none` is
`nil`), or `log.Fatalln` ends the process, or `ip2int` panics, the rule being `p` at that
point. -/
inductive Outcome where
  | returned (p : Pdr) (err : Option GoError)
  | fatal
  | panicked (p : Pdr)
  deriving DecidableEq

/-- How the first loop, or one pass through its body, ends: it is done, with the rule and
the local `ueIP4`, or `ip2int` has panicked, the rule being `p` at that point. -/
inductive Extracted where
  | done (st : Pdr × List Nat)
  | panicked (p : Pdr)
  deriving DecidableEq

/-- The identifiers used by `parse-pdr.go` and declared elsewhere. -/
structure Env where
  /-- The constant `access`. -/
  access : Nat
  /-- The constant `core`. -/
  core : Nat
  /-- The constant `reservedProto`. -/
  reservedProto : Nat
  /-- The function `ip2int`: the value it returns. -/
  ip2int : List Nat → Nat
  /-- Whether the call `ip2int(ip)` panics instead of returning: `ip2int` reads the bytes
  of the slice without a check of its length.  The address of an F-TEID reaches `ip2int`
  unchecked (line 107).  The other arguments of `ip2int` and `ipMask2int` are a UE
  address that has passed `len(ueIP4) == 4` (line 117) and the networks of a filter that
  `parseFlowDesc` has filled in; on these the calls are taken to return. -/
  ip2intPanics : List Nat → Bool
  /-- The function `ipMask2int`. -/
  ipMask2int : List Nat → Nat
  /-- The method `net.IP.String`. -/
  ipString : List Nat → String
  /-- The method `(*ipFilterRule).parseFlowDesc`: the rule it fills in, `none` when it
  returns an error. -/
  parseFlowDesc : String → String → Option IpFilterRule

/-- The registry `map[string]appPFD`, as its lookup. -/
abbrev Registry := String → Option AppPFD

/-- The constant `ie.SrcInterfaceAccess` of go-pfcp. -/
def SrcInterfaceAccess : Nat := 0

/-- The constant `ie.SrcInterfaceCore` of go-pfcp. -/
def SrcInterfaceCore : Nat := 1

/-- The constant `ie.SrcInterfaceCPFunction` of go-pfcp. -/
def SrcInterfaceCPFunction : Nat := 3

/-! ## `parsePDI` -/

/-- The body of the first loop (lines 70-113), on the rule and the local `ueIP4`.  In the
F-TEID case the TEID and its mask are written (lines 105-106) before `ip2int` is called
on the address (line 107). -/
def extractStep (E : Env) (st : Pdr × List Nat) (pdiIE : PdiIE) : Extracted :=
  match pdiIE with
  | .ueIPAddress none => .done st
  | .ueIPAddress (some ueIPaddr) => .done (st.1, ueIPaddr.IPv4Address)
  | .sourceInterface none => .done st
  | .sourceInterface (some srcIface) =>
      if srcIface = SrcInterfaceCPFunction then .done st
      else if srcIface = SrcInterfaceAccess then
        .done ({ st.1 with srcIface := E.access, srcIfaceMask := 0xFF }, st.2)
      else if srcIface = SrcInterfaceCore then
        .done ({ st.1 with srcIface := E.core, srcIfaceMask := 0xFF }, st.2)
      else .done st
  | .fteid none => .done st
  | .fteid (some fteid) =>
      if fteid.TEID ≠ 0 then
        let p1 : Pdr := { st.1 with tunnelTEID := fteid.TEID, tunnelTEIDMask := 0xFFFFFFFF }
        if E.ip2intPanics fteid.IPv4Address then .panicked p1
        else
          .done
            ({ p1 with
                tunnelIP4Dst := E.ip2int fteid.IPv4Address,
                tunnelIP4DstMask := 0xFFFFFFFF },
              st.2)
      else .done st
  | .qfi => .done st
  | .applicationID _ => .done st
  | .sdfFilter _ => .done st
  | .other _ => .done st

/-- The first loop (lines 69-114). -/
def extractLoop (E : Env) : List PdiIE → Pdr × List Nat → Extracted
  | [], st => .done st
  | pdiIE :: rest, st =>
      match extractStep E st pdiIE with
      | .done st1 => extractLoop E rest st1
      | .panicked p => .panicked p

/-- The block after the first loop (lines 116-125). -/
def ueFallback (E : Env) (st : Pdr × List Nat) : Pdr :=
  if st.2.length = 4 then
    if st.1.srcIface = E.core then
      { st.1 with dstIP := E.ip2int st.2, dstIPMask := 0xffffffff }
    else if st.1.srcIface = E.access then
      { st.1 with srcIP := E.ip2int st.2, srcIPMask := 0xffffffff }
    else st.1
  else st.1

/-- The condition of line 154. -/
def dirMatches (E : Env) (p : Pdr) (ipf : IpFilterRule) : Prop :=
  (p.srcIface = E.access ∧ ipf.direction = "out") ∨
    (p.srcIface = E.core ∧ ipf.direction = "in")

instance (E : Env) (p : Pdr) (ipf : IpFilterRule) : Decidable (dirMatches E p ipf) := by
  unfold dirMatches; infer_instance

/-- Lines 156-164: the assignments made for a matching flow description of the registry. -/
def applyPFD (E : Env) (ipf : IpFilterRule) (p : Pdr) : Pdr :=
  let p1 : Pdr :=
    if ipf.proto ≠ E.reservedProto then
      { p with proto := ipf.proto, protoMask := E.reservedProto }
    else p
  { p1 with
      dstIP := E.ip2int ipf.dst.IPNet.IP, dstIPMask := E.ipMask2int ipf.dst.IPNet.Mask,
      srcIP := E.ip2int ipf.src.IPNet.IP, srcIPMask := E.ipMask2int ipf.src.IPNet.Mask }

/-- The loop over the flow descriptions of a registry record (lines 146-168).  The error
is `errBadFilterDesc` when a description does not parse (line 151); the loop ends at the
first description whose direction matches (line 166). -/
def flowDescLoop (E : Env) (ueIP4 : List Nat) :
    List String → Pdr → Pdr × Option GoError
  | [], p => (p, none)
  | flowDesc :: rest, p =>
      match E.parseFlowDesc flowDesc (E.ipString ueIP4) with
      | none => (p, some .errBadFilterDesc)
      | some ipf =>
          if dirMatches E p ipf then (applyPFD E ipf p, none)
          else flowDescLoop E ueIP4 rest p

/-- Lines 191-206: the assignments made for a parsed SDF filter. -/
def applySDF (E : Env) (ipf : IpFilterRule) (p : Pdr) : Pdr :=
  let p1 : Pdr :=
    if ipf.proto ≠ E.reservedProto then
      { p with proto := ipf.proto, protoMask := E.reservedProto }
    else p
  if p1.srcIface = E.core then
    { p1 with
        dstIP := E.ip2int ipf.dst.IPNet.IP, dstIPMask := E.ipMask2int ipf.dst.IPNet.Mask,
        srcIP := E.ip2int ipf.src.IPNet.IP, srcIPMask := E.ipMask2int ipf.src.IPNet.Mask }
  else if p1.srcIface = E.access then
    { p1 with
        srcIP := E.ip2int ipf.dst.IPNet.IP, srcIPMask := E.ipMask2int ipf.dst.IPNet.Mask,
        dstIP := E.ip2int ipf.src.IPNet.IP, dstIPMask := E.ipMask2int ipf.src.IPNet.Mask }
  else p1

/-- The second loop (lines 127-208) and the final `return nil` (line 210). -/
def filterLoop (E : Env) (appPFDs : Registry) (ueIP4 : List Nat) :
    List PdiIE → Pdr → Outcome
  | [], p => .returned p none
  | .applicationID none :: rest, p => filterLoop E appPFDs ueIP4 rest p
  | .applicationID (some appID) :: rest, p =>
      match appPFDs appID with
      | none => filterLoop E appPFDs ueIP4 rest p
      | some apfd =>
          if appID ≠ apfd.appID then .fatal
          else
            match flowDescLoop E ueIP4 apfd.flowDescs p with
            | (p1, some err) => .returned p1 (some err)
            | (p1, none) => filterLoop E appPFDs ueIP4 rest p1
  | .sdfFilter none :: rest, p => filterLoop E appPFDs ueIP4 rest p
  | .sdfFilter (some sdfFields) :: rest, p =>
      if sdfFields.FlowDescription = "" then filterLoop E appPFDs ueIP4 rest p
      else
        match E.parseFlowDesc sdfFields.FlowDescription (E.ipString ueIP4) with
        | none => .returned p (some .errBadFilterDesc)
        | some ipf => filterLoop E appPFDs ueIP4 rest (applySDF E ipf p)
  | .ueIPAddress _ :: rest, p => filterLoop E appPFDs ueIP4 rest p
  | .sourceInterface _ :: rest, p => filterLoop E appPFDs ueIP4 rest p
  | .fteid _ :: rest, p => filterLoop E appPFDs ueIP4 rest p
  | .qfi :: rest, p => filterLoop E appPFDs ueIP4 rest p
  | .other _ :: rest, p => filterLoop E appPFDs ueIP4 rest p

/-- The method `parsePDI` (lines 66-211); `ueIP4` starts as the nil slice. -/
def parsePDI (E : Env) (pdiIEs : List PdiIE) (appPFDs : Registry) (p : Pdr) : Outcome :=
  match extractLoop E pdiIEs (p, []) with
  | .panicked q => .panicked q
  | .done st => filterLoop E appPFDs st.2 pdiIEs (ueFallback E st)

/-! ## `parsePDR` -/

/-- The method `parsePDR` (lines 213-259).  `uint32(pdrID)` widens a `uint16` and
`uint32(seid)` keeps the low 32 bits of a `uint64`. -/
def parsePDR (E : Env) (ie1 : PdrIE) (seid : Nat) (appPFDs : Registry) (p : Pdr) :
    Outcome :=
  match ie1.PDRID with
  | none => .returned p none
  | some pdrID =>
    match ie1.Precedence with
    | none => .returned p none
    | some precedence =>
      match ie1.PDI with
      | none => .returned p none
      | some pdi =>
        let outerHeaderRemoval : Nat :=
          if ie1.OuterHeaderRemovalDescription = some 0 then 1 else 0
        match parsePDI E pdi appPFDs p with
        | .fatal => .fatal
        | .panicked q => .panicked q
        | .returned p1 err =>
          if err ≠ none ∧ err ≠ some .errBadFilterDesc then .returned p1 err
          else
            match ie1.FARID with
            | none => .returned p1 none
            | some farID =>
              .returned
                { p1 with
                    precedence := precedence, pdrID := pdrID, fseID := seid % 2 ^ 32,
                    ctrID := 0, farID := farID, needDecap := outerHeaderRemoval }
                none

/-! ## A concrete environment, for evaluating the definitions -/

/-- Big-endian value of a byte slice. -/
def beValue (bs : List Nat) : Nat := bs.foldl (fun acc b => acc * 256 + b) 0

/-- A small flow-description parser: it knows four descriptions and rejects the rest. -/
def demoParse (flowDesc _ctx : String) : Option IpFilterRule :=
  if flowDesc = "tcp-out" then
    some ⟨"out", 6, ⟨⟨[10, 0, 0, 0], [255, 255, 255, 0]⟩⟩, ⟨⟨[20, 0, 0, 0], [255, 255, 255, 0]⟩⟩⟩
  else if flowDesc = "tcp-in" then
    some ⟨"in", 6, ⟨⟨[30, 0, 0, 0], [255, 255, 0, 0]⟩⟩, ⟨⟨[40, 0, 0, 0], [255, 255, 0, 0]⟩⟩⟩
  else if flowDesc = "any-out" then
    some ⟨"out", 255, ⟨⟨[50, 0, 0, 0], [255, 0, 0, 0]⟩⟩, ⟨⟨[60, 0, 0, 0], [255, 0, 0, 0]⟩⟩⟩
  else if flowDesc = "any-in" then
    some ⟨"in", 255, ⟨⟨[70, 0, 0, 0], [255, 0, 0, 0]⟩⟩, ⟨⟨[80, 0, 0, 0], [255, 0, 0, 0]⟩⟩⟩
  else none

/-- An environment with `access = 1`, `core = 2`, `reservedProto = 0xff`, in which
`ip2int` panics on a slice of fewer than four bytes. -/
def demoEnv : Env :=
  { access := 1, core := 2, reservedProto := 0xff,
    ip2int := beValue, ipMask2int := beValue,
    ip2intPanics := fun ip => decide (ip.length < 4),
    ipString := fun ip => if ip = [] then "<nil>" else "ip",
    parseFlowDesc := demoParse }

/-- A registry with the records `app1` (directions in, out, then a bad description),
`app2` (a bad description first) and a record stored under a key that is not its own
identifier. -/
def demoRegistry : Registry := fun appID =>
  if appID = "app1" then some ⟨"app1", ["tcp-in", "tcp-out", "bad"]⟩
  else if appID = "app2" then some ⟨"app2", ["bad", "tcp-out"]⟩
  else if appID = "app3" then some ⟨"wrong", []⟩
  else none

/-! ## Notions used in the statements and proofs -/

/-- The state that one pass through the body of the first loop leaves when `ip2int`
returns. -/
def extractStepVal (E : Env) (st : Pdr × List Nat) (pdiIE : PdiIE) : Pdr × List Nat :=
  match pdiIE with
  | .ueIPAddress none => st
  | .ueIPAddress (some ueIPaddr) => (st.1, ueIPaddr.IPv4Address)
  | .sourceInterface none => st
  | .sourceInterface (some srcIface) =>
      if srcIface = SrcInterfaceCPFunction then st
      else if srcIface = SrcInterfaceAccess then
        ({ st.1 with srcIface := E.access, srcIfaceMask := 0xFF }, st.2)
      else if srcIface = SrcInterfaceCore then
        ({ st.1 with srcIface := E.core, srcIfaceMask := 0xFF }, st.2)
      else st
  | .fteid none => st
  | .fteid (some fteid) =>
      if fteid.TEID ≠ 0 then
        ({ st.1 with
            tunnelTEID := fteid.TEID, tunnelTEIDMask := 0xFFFFFFFF,
            tunnelIP4Dst := E.ip2int fteid.IPv4Address, tunnelIP4DstMask := 0xFFFFFFFF },
          st.2)
      else st
  | .qfi => st
  | .applicationID _ => st
  | .sdfFilter _ => st
  | .other _ => st

/-- The state that the first loop leaves when no call of `ip2int` panics. -/
def extractLoopVal (E : Env) (pdiIEs : List PdiIE) (st : Pdr × List Nat) :
    Pdr × List Nat :=
  pdiIEs.foldl (extractStepVal E) st

/-- An element on which the body of the first loop panics: a decodable F-TEID with a
TEID that is not zero and an address on which `ip2int` panics. -/
def PdiIE.panics (E : Env) : PdiIE → Bool
  | .fteid (some fields) => decide (fields.TEID ≠ 0) && E.ip2intPanics fields.IPv4Address
  | _ => false

/-- No element of the PDI makes the first loop panic. -/
def NoPanic (E : Env) (ies : List PdiIE) : Prop :=
  ∀ e ∈ ies, e.panics E = false

/-- Elements that the second loop has a case for. -/
def PdiIE.isFilterElem : PdiIE → Bool
  | .applicationID _ => true
  | .sdfFilter _ => true
  | _ => false

/-- The fields of a rule, as projections. -/
def Pdr.fields : List (Pdr → Nat) :=
  [Pdr.srcIface, Pdr.tunnelIP4Dst, Pdr.tunnelTEID, Pdr.srcIP, Pdr.dstIP, Pdr.srcPort,
   Pdr.dstPort, Pdr.proto, Pdr.srcIfaceMask, Pdr.tunnelIP4DstMask, Pdr.tunnelTEIDMask,
   Pdr.srcIPMask, Pdr.dstIPMask, Pdr.srcPortMask, Pdr.dstPortMask, Pdr.protoMask,
   Pdr.precedence, Pdr.pdrID, Pdr.fseID, Pdr.ctrID, Pdr.farID, Pdr.needDecap]

/-- Two runs of the same code, started at `p0` and at `q0`, have reached `p` and `q`:
every field has either been written (with the same value in both runs) or is still what
it was at the start of its run. -/
def Agree (p0 q0 p q : Pdr) : Prop :=
  ∀ f ∈ Pdr.fields, f p = f q ∨ (f p = f p0 ∧ f q = f q0)

/-- The fields that the second loop never assigns. -/
def Pdr.keptByFilters : List (Pdr → Nat) :=
  [Pdr.srcIface, Pdr.tunnelIP4Dst, Pdr.tunnelTEID, Pdr.srcPort, Pdr.dstPort,
   Pdr.srcIfaceMask, Pdr.tunnelIP4DstMask, Pdr.tunnelTEIDMask, Pdr.srcPortMask,
   Pdr.dstPortMask, Pdr.precedence, Pdr.pdrID, Pdr.fseID, Pdr.ctrID, Pdr.farID,
   Pdr.needDecap]

/-- The fields that the first loop never assigns. -/
def Pdr.keptByExtract : List (Pdr → Nat) :=
  [Pdr.srcIP, Pdr.dstIP, Pdr.srcPort, Pdr.dstPort, Pdr.proto, Pdr.srcIPMask,
   Pdr.dstIPMask, Pdr.srcPortMask, Pdr.dstPortMask, Pdr.protoMask, Pdr.precedence,
   Pdr.pdrID, Pdr.fseID, Pdr.ctrID, Pdr.farID, Pdr.needDecap]

/-- Two outcomes of runs started at `p0` and `q0` agree. -/
def OutcomeAgree (p0 q0 : Pdr) : Outcome → Outcome → Prop
  | .returned r e, .returned r2 e2 => e = e2 ∧ Agree p0 q0 r r2
  | .fatal, .fatal => True
  | _, _ => False

/-- Sequencing of the code after a part that ended with `o`: the rest runs only when `o`
is a return with a nil error. -/
def Outcome.andThen (o : Outcome) (k : Pdr → Outcome) : Outcome :=
  match o with
  | .returned p none => k p
  | .returned p (some err) => .returned p (some err)
  | .fatal => .fatal
  | .panicked p => .panicked p

/-- A decodable F-TEID element whose TEID is zero. -/
def PdiIE.isZeroTEID : PdiIE → Bool
  | .fteid (some fields) => decide (fields.TEID = 0)
  | _ => false

/-- A decodable application identifier that the registry does not hold. -/
def PdiIE.isAbsentApp (appPFDs : Registry) : PdiIE → Bool
  | .applicationID (some appID) => (appPFDs appID).isNone
  | _ => false

/-- The two tunnel masks are both zero or both `0xFFFFFFFF`. -/
def Pdr.tunnelMasksTogether (p : Pdr) : Prop :=
  (p.tunnelTEIDMask = 0 ∧ p.tunnelIP4DstMask = 0) ∨
    (p.tunnelTEIDMask = 0xFFFFFFFF ∧ p.tunnelIP4DstMask = 0xFFFFFFFF)

/-- The PDR element `ie1` with its PDI replaced by the elements that satisfy `keep`. -/
def PdrIE.filterPDI (ie1 : PdrIE) (keep : PdiIE → Bool) : PdrIE :=
  { ie1 with PDI := ie1.PDI.map (List.filter keep) }

/-- The second loop, at element `x` with the rule `b`, applies the parsed filter `f`:
`x` is an SDF filter whose non-empty description parses as `f`, or an application
identifier held by the registry under its own identifier, and `f` is the first of its
flow descriptions whose direction matches, the ones before it having parsed. -/
def AppliesFilter (E : Env) (appPFDs : Registry) (ueIP4 : List Nat) (x : PdiIE) (b : Pdr)
    (f : IpFilterRule) : Prop :=
  (∃ d, x = .sdfFilter (some ⟨d⟩) ∧ d ≠ "" ∧
    E.parseFlowDesc d (E.ipString ueIP4) = some f) ∨
  (∃ appID pre d post, x = .applicationID (some appID) ∧
    appPFDs appID = some ⟨appID, pre ++ d :: post⟩ ∧
    (∀ y ∈ pre, ∃ g, E.parseFlowDesc y (E.ipString ueIP4) = some g ∧ ¬ dirMatches E b g) ∧
    E.parseFlowDesc d (E.ipString ueIP4) = some f ∧ dirMatches E b f)

/-- Every record of the registry is stored under its own identifier. -/
def RegistryConsistent (appPFDs : Registry) : Prop :=
  ∀ key apfd, appPFDs key = some apfd → apfd.appID = key

/-- A decodable application identifier whose lookup succeeds with a record whose stored
identifier is not the lookup key (the condition of line 142). -/
def Mismatched (appPFDs : Registry) (x : PdiIE) : Prop :=
  ∃ appID apfd, x = .applicationID (some appID) ∧ appPFDs appID = some apfd ∧
    appID ≠ apfd.appID

/-- A registry record's list of flow descriptions holds a description that the parser
rejects and that no description parsing with a direction matching the rule `b` comes
before. -/
def RejectedBeforeMatch (E : Env) (ueIP4 : List Nat) (b : Pdr) (flowDescs : List String) :
    Prop :=
  ∃ pre d post, flowDescs = pre ++ d :: post ∧
    E.parseFlowDesc d (E.ipString ueIP4) = none ∧
    ∀ y ∈ pre, ∀ g, E.parseFlowDesc y (E.ipString ueIP4) = some g → ¬ dirMatches E b g

/-- A triggering filter element, for the captured UE address `ueIP4` and the rule `b`: a
decodable SDF filter with a non-empty description that the parser rejects, or a decodable
application identifier held by the registry whose record satisfies
`RejectedBeforeMatch`. -/
def Triggering (E : Env) (appPFDs : Registry) (ueIP4 : List Nat) (b : Pdr) : PdiIE → Prop
  | .sdfFilter (some sdfFields) =>
      sdfFields.FlowDescription ≠ "" ∧
        E.parseFlowDesc sdfFields.FlowDescription (E.ipString ueIP4) = none
  | .applicationID (some appID) =>
      ∃ apfd, appPFDs appID = some apfd ∧ RejectedBeforeMatch E ueIP4 b apfd.flowDescs
  | _ => False

/-- A UE IP address element. -/
def PdiIE.isUEIP : PdiIE → Bool
  | .ueIPAddress _ => true
  | _ => false

/-- A source-interface element. -/
def PdiIE.isSrcIface : PdiIE → Bool
  | .sourceInterface _ => true
  | _ => false

/-- An F-TEID element. -/
def PdiIE.isFTEID : PdiIE → Bool
  | .fteid _ => true
  | _ => false

/-- A QFI element. -/
def PdiIE.isQFI : PdiIE → Bool
  | .qfi => true
  | _ => false

/-- The list holds at most one element that satisfies `q`. -/
def AtMostOne (q : PdiIE → Bool) (ies : List PdiIE) : Prop :=
  (ies.filter q).length ≤ 1

/-- The PDI holds at most one element of each kind that the first loop extracts from (UE
IP address, source interface, F-TEID, QFI) and at most one filter element (SDF filter or
application identifier). -/
def NoDuplicates (ies : List PdiIE) : Prop :=
  AtMostOne PdiIE.isUEIP ies ∧ AtMostOne PdiIE.isSrcIface ies ∧
    AtMostOne PdiIE.isFTEID ies ∧ AtMostOne PdiIE.isQFI ies ∧
    AtMostOne PdiIE.isFilterElem ies

/-- The assignments that the second loop makes when it applies the parsed filter `f` at
the element `x`: those of lines 191-206 for an SDF filter, those of lines 156-164 for an
application identifier. -/
def applyElem (E : Env) (x : PdiIE) (f : IpFilterRule) (p : Pdr) : Pdr :=
  match x with
  | .sdfFilter _ => applySDF E f p
  | _ => applyPFD E f p

/-! ## The first loop: when it panics, and what it leaves when it does not -/

theorem extractStep_of_not_panics (E : Env) (st : Pdr × List Nat) (e : PdiIE)
    (h : e.panics E = false) : extractStep E st e = .done (extractStepVal E st e) := by
  cases e with
  | fteid dec =>
    cases dec with
    | none => rfl
    | some v =>
      simp only [PdiIE.panics, Bool.and_eq_false_imp, decide_eq_true_eq] at h
      simp only [extractStep, extractStepVal]
      by_cases ht : v.TEID ≠ 0
      · simp only [ht, ne_eq, not_false_eq_true, if_true, h ht, Bool.false_eq_true, if_false]
      · simp only [ht, if_false]
  | sourceInterface dec =>
    cases dec with
    | none => rfl
    | some v =>
      simp only [extractStep, extractStepVal]
      split <;> (try split) <;> (try split) <;> rfl
  | ueIPAddress dec => cases dec <;> rfl
  | qfi => rfl
  | applicationID dec => rfl
  | sdfFilter dec => rfl
  | other t => rfl

/-- On a panicking element the body of the first loop ends with the TEID and its mask
written and the tunnel destination and its mask as they were. -/
theorem extractStep_of_panics (E : Env) (st : Pdr × List Nat) (e : PdiIE)
    (h : e.panics E = true) :
    ∃ q, extractStep E st e = .panicked q ∧ q.tunnelTEIDMask = 0xFFFFFFFF ∧
      q.tunnelIP4DstMask = st.1.tunnelIP4DstMask := by
  cases e with
  | fteid dec =>
    cases dec with
    | none => simp [PdiIE.panics] at h
    | some v =>
      simp only [PdiIE.panics, Bool.and_eq_true, decide_eq_true_eq] at h
      refine ⟨{ st.1 with tunnelTEID := v.TEID, tunnelTEIDMask := 0xFFFFFFFF }, ?_, rfl, rfl⟩
      simp only [extractStep, h.1, ne_eq, not_false_eq_true, if_true, h.2]
  | sourceInterface dec => simp [PdiIE.panics] at h
  | ueIPAddress dec => simp [PdiIE.panics] at h
  | qfi => simp [PdiIE.panics] at h
  | applicationID dec => simp [PdiIE.panics] at h
  | sdfFilter dec => simp [PdiIE.panics] at h
  | other t => simp [PdiIE.panics] at h

theorem extractLoop_of_noPanic (E : Env) (ies : List PdiIE) :
    ∀ st, NoPanic E ies → extractLoop E ies st = .done (extractLoopVal E ies st) := by
  induction ies with
  | nil => intro st _; rfl
  | cons e es ih =>
    intro st h
    have he : e.panics E = false := h e (List.mem_cons_self _ _)
    have hes : NoPanic E es := fun x hx => h x (List.mem_cons_of_mem _ hx)
    simp only [extractLoop, extractStep_of_not_panics E st e he]
    exact ih _ hes

theorem extractLoop_of_panic (E : Env) (ies : List PdiIE) :
    ∀ st, ¬ NoPanic E ies → ∃ q, extractLoop E ies st = .panicked q := by
  induction ies with
  | nil => intro st h; exact absurd (fun e he => by simp at he) h
  | cons e es ih =>
    intro st h
    cases he : e.panics E with
    | true =>
      obtain ⟨q, hq, _⟩ := extractStep_of_panics E st e he
      exact ⟨q, by simp only [extractLoop, hq]⟩
    | false =>
      have hes : ¬ NoPanic E es := by
        intro hes
        apply h
        intro x hx
        rcases List.mem_cons.1 hx with rfl | hx
        · exact he
        · exact hes x hx
      simp only [extractLoop, extractStep_of_not_panics E st e he]
      exact ih _ hes

/-- The first loop is done exactly when no element panics, and then it leaves
`extractLoopVal`. -/
theorem extractLoop_done (E : Env) (ies : List PdiIE) (st st1 : Pdr × List Nat)
    (h : extractLoop E ies st = .done st1) :
    NoPanic E ies ∧ st1 = extractLoopVal E ies st := by
  by_cases hn : NoPanic E ies
  · rw [extractLoop_of_noPanic E ies st hn] at h
    simp only [Extracted.done.injEq] at h
    exact ⟨hn, h.symm⟩
  · obtain ⟨q, hq⟩ := extractLoop_of_panic E ies st hn
    rw [hq] at h
    cases h

theorem filterLoop_ne_panicked (E : Env) (reg : Registry) (ue : List Nat)
    (ies : List PdiIE) : ∀ p q, filterLoop E reg ue ies p ≠ .panicked q := by
  induction ies with
  | nil => intro p q h; simp [filterLoop] at h
  | cons x xs ih =>
    intro p q h
    cases x with
    | applicationID dec =>
      cases dec with
      | none => exact ih p q (by simpa [filterLoop] using h)
      | some appID =>
        simp only [filterLoop] at h
        cases hreg : reg appID with
        | none => rw [hreg] at h; exact ih p q h
        | some apfd =>
          rw [hreg] at h
          simp only at h
          split at h
          · cases h
          · cases hfl : flowDescLoop E ue apfd.flowDescs p with
            | mk p1 err =>
              rw [hfl] at h
              cases err with
              | some ev => cases h
              | none => exact ih p1 q h
    | sdfFilter dec =>
      cases dec with
      | none => exact ih p q (by simpa [filterLoop] using h)
      | some sdf =>
        simp only [filterLoop] at h
        split at h
        · exact ih p q h
        · cases hp : E.parseFlowDesc sdf.FlowDescription (E.ipString ue) with
          | none => rw [hp] at h; cases h
          | some ipf => rw [hp] at h; exact ih _ q h
    | ueIPAddress dec => exact ih p q (by simpa [filterLoop] using h)
    | sourceInterface dec => exact ih p q (by simpa [filterLoop] using h)
    | fteid dec => exact ih p q (by simpa [filterLoop] using h)
    | qfi => exact ih p q (by simpa [filterLoop] using h)
    | other t => exact ih p q (by simpa [filterLoop] using h)

theorem parsePDI_of_done (E : Env) (ies : List PdiIE) (reg : Registry) (p : Pdr)
    (st : Pdr × List Nat) (h : extractLoop E ies (p, []) = .done st) :
    parsePDI E ies reg p = filterLoop E reg st.2 ies (ueFallback E st) := by
  simp only [parsePDI, h]

theorem parsePDI_of_noPanic (E : Env) (ies : List PdiIE) (reg : Registry) (p : Pdr)
    (h : NoPanic E ies) :
    parsePDI E ies reg p = filterLoop E reg (extractLoopVal E ies (p, [])).2 ies
      (ueFallback E (extractLoopVal E ies (p, []))) :=
  parsePDI_of_done E ies reg p _ (extractLoop_of_noPanic E ies (p, []) h)

theorem parsePDI_of_panic (E : Env) (ies : List PdiIE) (reg : Registry) (p : Pdr)
    (h : ¬ NoPanic E ies) : ∃ q, parsePDI E ies reg p = .panicked q := by
  obtain ⟨q, hq⟩ := extractLoop_of_panic E ies (p, []) h
  exact ⟨q, by simp only [parsePDI, hq]⟩

/-- When `parsePDI` does not panic, no element panics and the outcome is that of the
second loop on what the first loop left. -/
theorem parsePDI_not_panicked (E : Env) (ies : List PdiIE) (reg : Registry) (p : Pdr)
    (h : ∀ q, parsePDI E ies reg p ≠ .panicked q) :
    NoPanic E ies ∧
      parsePDI E ies reg p = filterLoop E reg (extractLoopVal E ies (p, [])).2 ies
        (ueFallback E (extractLoopVal E ies (p, []))) := by
  by_cases hn : NoPanic E ies
  · exact ⟨hn, parsePDI_of_noPanic E ies reg p hn⟩
  · obtain ⟨q, hq⟩ := parsePDI_of_panic E ies reg p hn
    exact absurd hq (h q)

theorem parsePDI_returned (E : Env) (ies : List PdiIE) (reg : Registry) (p r : Pdr)
    (e : Option GoError) (h : parsePDI E ies reg p = .returned r e) :
    NoPanic E ies ∧
      filterLoop E reg (extractLoopVal E ies (p, [])).2 ies
        (ueFallback E (extractLoopVal E ies (p, []))) = .returned r e := by
  obtain ⟨hn, heq⟩ := parsePDI_not_panicked E ies reg p (by rw [h]; intro q hq; cases hq)
  exact ⟨hn, heq ▸ h⟩

/-! ## Lemmas on the two loops -/

theorem extractLoopVal_nil (E : Env) (st : Pdr × List Nat) : extractLoopVal E [] st = st := rfl

theorem extractLoopVal_cons (E : Env) (e : PdiIE) (es : List PdiIE) (st : Pdr × List Nat) :
    extractLoopVal E (e :: es) st = extractLoopVal E es (extractStepVal E st e) := rfl

theorem extractLoopVal_filter (E : Env) (keep : PdiIE → Bool)
    (hdrop : ∀ e, keep e = false → ∀ st, extractStepVal E st e = st) (ies : List PdiIE) :
    ∀ st, extractLoopVal E (ies.filter keep) st = extractLoopVal E ies st := by
  induction ies with
  | nil => intro st; rfl
  | cons e es ih =>
    intro st
    cases hk : keep e with
    | true => simp [List.filter, hk, extractLoopVal_cons, ih]
    | false => simp [List.filter, hk, extractLoopVal_cons, ih, hdrop e hk st]

theorem filterLoop_filter (E : Env) (reg : Registry) (ue : List Nat) (keep : PdiIE → Bool)
    (hdrop : ∀ e, keep e = false →
      ∀ rest p, filterLoop E reg ue (e :: rest) p = filterLoop E reg ue rest p)
    (ies : List PdiIE) :
    ∀ p, filterLoop E reg ue (ies.filter keep) p = filterLoop E reg ue ies p := by
  induction ies with
  | nil => intro p; rfl
  | cons e es ih =>
    intro p
    cases hk : keep e with
    | false => simp [List.filter, hk, ih, hdrop e hk es p]
    | true =>
      simp only [List.filter, hk]
      cases e with
      | applicationID dec =>
        cases dec with
        | none => simp [filterLoop, ih]
        | some appID =>
          simp only [filterLoop]
          cases reg appID with
          | none => simp [ih]
          | some apfd =>
            simp only
            split
            · rfl
            · cases hfl : flowDescLoop E ue apfd.flowDescs p with
              | mk p1 err => cases err <;> simp [ih]
      | sdfFilter dec =>
        cases dec with
        | none => simp [filterLoop, ih]
        | some sdf =>
          simp only [filterLoop]
          split
          · exact ih p
          · cases E.parseFlowDesc sdf.FlowDescription (E.ipString ue) <;> simp [ih]
      | ueIPAddress dec => simp [filterLoop, ih]
      | sourceInterface dec => simp [filterLoop, ih]
      | fteid dec => simp [filterLoop, ih]
      | qfi => simp [filterLoop, ih]
      | other t => simp [filterLoop, ih]

theorem filterLoop_skip_of_not_filterElem (E : Env) (reg : Registry) (ue : List Nat)
    (e : PdiIE) (h : e.isFilterElem = false) (rest : List PdiIE) (p : Pdr) :
    filterLoop E reg ue (e :: rest) p = filterLoop E reg ue rest p := by
  cases e <;> simp [PdiIE.isFilterElem] at h <;> simp [filterLoop]

theorem Pdr.ext_fields {p q : Pdr} (h : ∀ f ∈ Pdr.fields, f p = f q) : p = q := by
  cases p; cases q
  simp [Pdr.fields] at h
  simp [h]

theorem agree_start (p0 q0 : Pdr) : Agree p0 q0 p0 q0 := by
  intro f _; exact Or.inr ⟨rfl, rfl⟩

theorem agree_extractStepVal (E : Env) {p0 q0 p q : Pdr} (u : List Nat) (e : PdiIE)
    (h : Agree p0 q0 p q) :
    Agree p0 q0 (extractStepVal E (p, u) e).1 (extractStepVal E (q, u) e).1 ∧
      (extractStepVal E (p, u) e).2 = (extractStepVal E (q, u) e).2 := by
  cases e with
  | sourceInterface dec =>
    cases dec with
    | none => exact ⟨h, rfl⟩
    | some v =>
      simp only [extractStepVal]
      split
      · exact ⟨h, rfl⟩
      · split
        · refine ⟨?_, rfl⟩
          simp only [Agree, Pdr.fields, List.forall_mem_cons] at h ⊢
          simp_all
        · split
          · refine ⟨?_, rfl⟩
            simp only [Agree, Pdr.fields, List.forall_mem_cons] at h ⊢
            simp_all
          · exact ⟨h, rfl⟩
  | fteid dec =>
    cases dec with
    | none => exact ⟨h, rfl⟩
    | some v =>
      simp only [extractStepVal]
      split
      · refine ⟨?_, rfl⟩
        simp only [Agree, Pdr.fields, List.forall_mem_cons] at h ⊢
        simp_all
      · exact ⟨h, rfl⟩
  | ueIPAddress dec => cases dec <;> exact ⟨h, rfl⟩
  | qfi => exact ⟨h, rfl⟩
  | applicationID dec => exact ⟨h, rfl⟩
  | sdfFilter dec => exact ⟨h, rfl⟩
  | other t => exact ⟨h, rfl⟩

theorem applyPFD_kept (E : Env) (ipf : IpFilterRule) (p : Pdr) :
    ∀ f ∈ Pdr.keptByFilters, f (applyPFD E ipf p) = f p := by
  simp only [Pdr.keptByFilters, List.forall_mem_cons, applyPFD]
  split <;> simp

theorem applySDF_kept (E : Env) (ipf : IpFilterRule) (p : Pdr) :
    ∀ f ∈ Pdr.keptByFilters, f (applySDF E ipf p) = f p := by
  simp only [Pdr.keptByFilters, List.forall_mem_cons, applySDF]
  split <;> split <;> (try split) <;> simp

theorem ueFallback_kept (E : Env) (st : Pdr × List Nat) :
    ∀ f ∈ Pdr.keptByFilters, f (ueFallback E st) = f st.1 := by
  simp only [Pdr.keptByFilters, List.forall_mem_cons, ueFallback]
  split <;> (try split) <;> (try split) <;> simp

theorem flowDescLoop_kept (E : Env) (ue : List Nat) (ds : List String) (p : Pdr) :
    ∀ f ∈ Pdr.keptByFilters, f (flowDescLoop E ue ds p).1 = f p := by
  induction ds with
  | nil => intro f _; rfl
  | cons d ds ih =>
    simp only [flowDescLoop]
    cases E.parseFlowDesc d (E.ipString ue) with
    | none => intro f _; rfl
    | some ipf =>
      simp only
      split
      · exact applyPFD_kept E ipf p
      · exact ih

theorem filterLoop_kept (E : Env) (reg : Registry) (ue : List Nat) (ies : List PdiIE) :
    ∀ p r e, filterLoop E reg ue ies p = .returned r e →
      ∀ f ∈ Pdr.keptByFilters, f r = f p := by
  induction ies with
  | nil =>
    intro p r e h f _
    simp [filterLoop] at h
    rw [h.1]
  | cons x xs ih =>
    intro p r e h
    cases x with
    | applicationID dec =>
      cases dec with
      | none => exact ih p r e (by simpa [filterLoop] using h)
      | some appID =>
        simp only [filterLoop] at h
        cases hreg : reg appID with
        | none => rw [hreg] at h; exact ih p r e h
        | some apfd =>
          rw [hreg] at h
          simp only at h
          split at h
          · cases h
          · have hk := flowDescLoop_kept E ue apfd.flowDescs p
            cases hfl : flowDescLoop E ue apfd.flowDescs p with
            | mk p1 err =>
              rw [hfl] at h hk
              cases err with
              | some ev =>
                simp only [Outcome.returned.injEq] at h
                intro f hf; rw [← h.1]; exact hk f hf
              | none =>
                intro f hf
                rw [ih p1 r e h f hf]; exact hk f hf
    | sdfFilter dec =>
      cases dec with
      | none => exact ih p r e (by simpa [filterLoop] using h)
      | some sdf =>
        simp only [filterLoop] at h
        split at h
        · exact ih p r e h
        · cases hp : E.parseFlowDesc sdf.FlowDescription (E.ipString ue) with
          | none =>
            rw [hp] at h
            simp only [Outcome.returned.injEq] at h
            intro f _; rw [h.1]
          | some ipf =>
            rw [hp] at h
            intro f hf
            rw [ih _ r e h f hf]; exact applySDF_kept E ipf p f hf
    | ueIPAddress dec => exact ih p r e (by simpa [filterLoop] using h)
    | sourceInterface dec => exact ih p r e (by simpa [filterLoop] using h)
    | fteid dec => exact ih p r e (by simpa [filterLoop] using h)
    | qfi => exact ih p r e (by simpa [filterLoop] using h)
    | other t => exact ih p r e (by simpa [filterLoop] using h)

theorem extractStepVal_kept (E : Env) (st : Pdr × List Nat) (e : PdiIE) :
    ∀ f ∈ Pdr.keptByExtract, f (extractStepVal E st e).1 = f st.1 := by
  simp only [Pdr.keptByExtract, List.forall_mem_cons]
  cases e with
  | sourceInterface dec =>
    cases dec with
    | none => simp [extractStepVal]
    | some v => simp only [extractStepVal]; split <;> (try split) <;> (try split) <;> simp
  | fteid dec =>
    cases dec with
    | none => simp [extractStepVal]
    | some v => simp only [extractStepVal]; split <;> simp
  | ueIPAddress dec => cases dec <;> simp [extractStepVal]
  | qfi => simp [extractStepVal]
  | applicationID dec => simp [extractStepVal]
  | sdfFilter dec => simp [extractStepVal]
  | other t => simp [extractStepVal]

theorem extractLoopVal_kept (E : Env) (ies : List PdiIE) :
    ∀ st, ∀ f ∈ Pdr.keptByExtract, f (extractLoopVal E ies st).1 = f st.1 := by
  induction ies with
  | nil => intro st f _; rfl
  | cons e es ih =>
    intro st f hf
    rw [extractLoopVal_cons, ih _ f hf, extractStepVal_kept E st e f hf]

theorem srcIface_mem_kept : Pdr.srcIface ∈ Pdr.keptByFilters := by
  simp [Pdr.keptByFilters]

theorem agree_extractLoopVal (E : Env) {p0 q0 : Pdr} (ies : List PdiIE) :
    ∀ (p q : Pdr) (u : List Nat), Agree p0 q0 p q →
      Agree p0 q0 (extractLoopVal E ies (p, u)).1 (extractLoopVal E ies (q, u)).1 ∧
        (extractLoopVal E ies (p, u)).2 = (extractLoopVal E ies (q, u)).2 := by
  induction ies with
  | nil => intro p q u h; exact ⟨h, rfl⟩
  | cons e es ih =>
    intro p q u h
    obtain ⟨h1, h2⟩ := agree_extractStepVal E u e h
    simp only [extractLoopVal_cons]
    cases hp : extractStepVal E (p, u) e with
    | mk p1 u1 =>
      cases hq : extractStepVal E (q, u) e with
      | mk q1 u2 =>
        rw [hp, hq] at h1 h2
        simp only at h1 h2
        subst h2
        exact ih p1 q1 u1 h1

theorem agree_ueFallback (E : Env) {p0 q0 p q : Pdr} (u : List Nat)
    (h : Agree p0 q0 p q) (hi : p.srcIface = q.srcIface) :
    Agree p0 q0 (ueFallback E (p, u)) (ueFallback E (q, u)) := by
  simp only [ueFallback, hi]
  split
  · split
    · simp only [Agree, Pdr.fields, List.forall_mem_cons] at h ⊢
      simp_all
    · split
      · simp only [Agree, Pdr.fields, List.forall_mem_cons] at h ⊢
        simp_all
      · exact h
  · exact h

theorem agree_applyPFD (E : Env) {p0 q0 p q : Pdr} (ipf : IpFilterRule)
    (h : Agree p0 q0 p q) :
    Agree p0 q0 (applyPFD E ipf p) (applyPFD E ipf q) := by
  simp only [applyPFD]
  split
  · simp only [Agree, Pdr.fields, List.forall_mem_cons] at h ⊢
    simp_all
  · simp only [Agree, Pdr.fields, List.forall_mem_cons] at h ⊢
    simp_all

theorem agree_applySDF (E : Env) {p0 q0 p q : Pdr} (ipf : IpFilterRule)
    (h : Agree p0 q0 p q) (hi : p.srcIface = q.srcIface) :
    Agree p0 q0 (applySDF E ipf p) (applySDF E ipf q) := by
  simp only [applySDF]
  split
  · simp only [hi]
    split
    · simp only [Agree, Pdr.fields, List.forall_mem_cons] at h ⊢
      simp_all
    · split
      · simp only [Agree, Pdr.fields, List.forall_mem_cons] at h ⊢
        simp_all
      · simp only [Agree, Pdr.fields, List.forall_mem_cons] at h ⊢
        simp_all
  · simp only [hi]
    split
    · simp only [Agree, Pdr.fields, List.forall_mem_cons] at h ⊢
      simp_all
    · split
      · simp only [Agree, Pdr.fields, List.forall_mem_cons] at h ⊢
        simp_all
      · exact h

theorem agree_flowDescLoop (E : Env) {p0 q0 p q : Pdr} (ue : List Nat) (ds : List String)
    (h : Agree p0 q0 p q) (hi : p.srcIface = q.srcIface) :
    Agree p0 q0 (flowDescLoop E ue ds p).1 (flowDescLoop E ue ds q).1 ∧
      (flowDescLoop E ue ds p).2 = (flowDescLoop E ue ds q).2 := by
  induction ds with
  | nil => exact ⟨h, rfl⟩
  | cons d ds ih =>
    simp only [flowDescLoop]
    cases E.parseFlowDesc d (E.ipString ue) with
    | none => exact ⟨h, rfl⟩
    | some ipf =>
      simp only [dirMatches, hi]
      split
      · exact ⟨agree_applyPFD E ipf h, rfl⟩
      · exact ih

theorem agree_filterLoop (E : Env) (reg : Registry) {p0 q0 : Pdr} (ue : List Nat)
    (ies : List PdiIE) :
    ∀ p q, Agree p0 q0 p q → p.srcIface = q.srcIface →
      OutcomeAgree p0 q0 (filterLoop E reg ue ies p) (filterLoop E reg ue ies q) := by
  induction ies with
  | nil => intro p q h _; exact ⟨rfl, h⟩
  | cons x xs ih =>
    intro p q h hi
    cases x with
    | applicationID dec =>
      cases dec with
      | none => simpa [filterLoop] using ih p q h hi
      | some appID =>
        simp only [filterLoop]
        cases reg appID with
        | none => exact ih p q h hi
        | some apfd =>
          simp only
          split
          · trivial
          · obtain ⟨ha, he⟩ := agree_flowDescLoop E ue apfd.flowDescs h hi
            have hkp := flowDescLoop_kept E ue apfd.flowDescs p _ srcIface_mem_kept
            have hkq := flowDescLoop_kept E ue apfd.flowDescs q _ srcIface_mem_kept
            cases hp : flowDescLoop E ue apfd.flowDescs p with
            | mk p1 e1 =>
              cases hq : flowDescLoop E ue apfd.flowDescs q with
              | mk q1 e2 =>
                rw [hp, hq] at ha he
                rw [hp] at hkp
                rw [hq] at hkq
                simp only at ha he hkp hkq
                subst he
                cases e1 with
                | some ev => exact ⟨rfl, ha⟩
                | none => exact ih p1 q1 ha (by rw [hkp, hkq, hi])
    | sdfFilter dec =>
      cases dec with
      | none => simpa [filterLoop] using ih p q h hi
      | some sdf =>
        simp only [filterLoop]
        split
        · exact ih p q h hi
        · cases E.parseFlowDesc sdf.FlowDescription (E.ipString ue) with
          | none => exact ⟨rfl, h⟩
          | some ipf =>
            refine ih _ _ (agree_applySDF E ipf h hi) ?_
            rw [applySDF_kept E ipf p _ srcIface_mem_kept,
              applySDF_kept E ipf q _ srcIface_mem_kept, hi]
    | ueIPAddress dec => simpa [filterLoop] using ih p q h hi
    | sourceInterface dec => simpa [filterLoop] using ih p q h hi
    | fteid dec => simpa [filterLoop] using ih p q h hi
    | qfi => simpa [filterLoop] using ih p q h hi
    | other t => simpa [filterLoop] using ih p q h hi

theorem srcIface_mem_fields : Pdr.srcIface ∈ Pdr.fields := by
  simp [Pdr.fields]

theorem parsePDI_rerun (E : Env) (ies : List PdiIE) (reg : Registry) (p r : Pdr)
    (e : Option GoError) (h : parsePDI E ies reg p = .returned r e) :
    parsePDI E ies reg r = .returned r e := by
  obtain ⟨hn, h⟩ := parsePDI_returned E ies reg p r e h
  rw [parsePDI_of_noPanic E ies reg r hn]
  obtain ⟨hag, hue⟩ := agree_extractLoopVal E ies p r [] (agree_start p r)
  cases ha : extractLoopVal E ies (p, []) with
  | mk a u =>
    cases hb : extractLoopVal E ies (r, []) with
    | mk b u2 =>
      rw [ha, hb] at hag hue
      rw [ha] at h
      simp only at hag hue h ⊢
      subst hue
      have hra : r.srcIface = a.srcIface := by
        rw [filterLoop_kept E reg u ies _ r e h _ srcIface_mem_kept]
        exact ueFallback_kept E (a, u) _ srcIface_mem_kept
      have hi : a.srcIface = b.srcIface := by
        rcases hag _ srcIface_mem_fields with h1 | ⟨_, h2⟩
        · exact h1
        · rw [h2, hra]
      have hfb := agree_ueFallback E u hag hi
      have hi2 : (ueFallback E (a, u)).srcIface = (ueFallback E (b, u)).srcIface := by
        rw [ueFallback_kept E (a, u) _ srcIface_mem_kept,
          ueFallback_kept E (b, u) _ srcIface_mem_kept]
        exact hi
      have hfl := agree_filterLoop E reg u ies _ _ hfb hi2
      rw [h] at hfl
      cases hr : filterLoop E reg u ies (ueFallback E (b, u)) with
      | fatal => rw [hr] at hfl; exact hfl.elim
      | panicked q => rw [hr] at hfl; exact hfl.elim
      | returned r2 e2 =>
        rw [hr] at hfl
        obtain ⟨he, hagr⟩ := hfl
        subst he
        have : r2 = r := by
          apply Pdr.ext_fields
          intro f hf
          rcases hagr f hf with h1 | ⟨_, h2⟩
          · exact h1.symm
          · exact h2
        rw [this]

/-- What the outcome `o` of the elements processed so far means for the rest of the
second loop: it goes on from the rule left behind when `o` is a return without error,
and ends with `o` otherwise. -/
theorem filterLoop_cons_eq (E : Env) (reg : Registry) (ue : List Nat) (x : PdiIE)
    (xs : List PdiIE) (p : Pdr) :
    filterLoop E reg ue (x :: xs) p = (filterLoop E reg ue [x] p).andThen
      (filterLoop E reg ue xs) := by
  cases x with
  | applicationID dec =>
    cases dec with
    | none => simp [filterLoop, Outcome.andThen]
    | some appID =>
      simp only [filterLoop]
      cases reg appID with
      | none => simp [Outcome.andThen]
      | some apfd =>
        simp only
        split
        · rfl
        · cases flowDescLoop E ue apfd.flowDescs p with
          | mk p1 err => cases err <;> simp [Outcome.andThen]
  | sdfFilter dec =>
    cases dec with
    | none => simp [filterLoop, Outcome.andThen]
    | some sdf =>
      simp only [filterLoop]
      split
      · simp [Outcome.andThen]
      · cases E.parseFlowDesc sdf.FlowDescription (E.ipString ue) <;>
          simp [Outcome.andThen]
  | ueIPAddress dec => simp [filterLoop, Outcome.andThen]
  | sourceInterface dec => simp [filterLoop, Outcome.andThen]
  | fteid dec => simp [filterLoop, Outcome.andThen]
  | qfi => simp [filterLoop, Outcome.andThen]
  | other t => simp [filterLoop, Outcome.andThen]

theorem filterLoop_single_error (E : Env) (reg : Registry) (ue : List Nat) (x : PdiIE)
    (p r : Pdr) (e : GoError) (h : filterLoop E reg ue [x] p = .returned r (some e)) :
    r = p ∧ e = .errBadFilterDesc := by
  cases x with
  | applicationID dec =>
    cases dec with
    | none => simp [filterLoop] at h
    | some appID =>
      simp only [filterLoop] at h
      cases hreg : reg appID with
      | none => rw [hreg] at h; simp at h
      | some apfd =>
        rw [hreg] at h
        simp only at h
        split at h
        · cases h
        · have hfd : ∀ (ds : List String) (q q1 : Pdr) (ev : GoError),
              flowDescLoop E ue ds q = (q1, some ev) → q1 = q ∧ ev = .errBadFilterDesc := by
            intro ds
            induction ds with
            | nil => intro q q1 ev hq; simp [flowDescLoop] at hq
            | cons d ds ih =>
              intro q q1 ev hq
              simp only [flowDescLoop] at hq
              cases hp : E.parseFlowDesc d (E.ipString ue) with
              | none =>
                rw [hp] at hq
                simp only [Prod.mk.injEq, Option.some.injEq] at hq
                exact ⟨hq.1.symm, hq.2.symm⟩
              | some ipf =>
                rw [hp] at hq
                simp only at hq
                split at hq
                · simp at hq
                · exact ih q q1 ev hq
          cases hfl : flowDescLoop E ue apfd.flowDescs p with
          | mk p1 err =>
            rw [hfl] at h
            cases err with
            | none => simp [filterLoop] at h
            | some ev =>
              simp only [Outcome.returned.injEq, Option.some.injEq] at h
              obtain ⟨h1, h2⟩ := hfd _ _ _ _ hfl
              rw [← h.1, ← h.2]
              exact ⟨h1, h2⟩
  | sdfFilter dec =>
    cases dec with
    | none => simp [filterLoop] at h
    | some sdf =>
      simp only [filterLoop] at h
      split at h
      · simp at h
      · cases hp : E.parseFlowDesc sdf.FlowDescription (E.ipString ue) with
        | none =>
          rw [hp] at h
          simp only [Outcome.returned.injEq, Option.some.injEq] at h
          exact ⟨h.1.symm, h.2.symm⟩
        | some ipf => rw [hp] at h; simp [filterLoop] at h
  | ueIPAddress dec => simp [filterLoop] at h
  | sourceInterface dec => simp [filterLoop] at h
  | fteid dec => simp [filterLoop] at h
  | qfi => simp [filterLoop] at h
  | other t => simp [filterLoop] at h

/-- A failing second loop has stopped at one element: the elements before it were
processed without error and left the rule that is returned, and that element fails on
this rule without changing it. -/
theorem filterLoop_error_split (E : Env) (reg : Registry) (ue : List Nat)
    (ies : List PdiIE) :
    ∀ (p r : Pdr) (e : GoError), filterLoop E reg ue ies p = .returned r (some e) →
      e = .errBadFilterDesc ∧ ∃ pre x post, ies = pre ++ x :: post ∧
        filterLoop E reg ue pre p = .returned r none ∧
        filterLoop E reg ue [x] r = .returned r (some .errBadFilterDesc) := by
  induction ies with
  | nil => intro p r e h; simp [filterLoop] at h
  | cons x xs ih =>
    intro p r e h
    rw [filterLoop_cons_eq] at h
    cases hx : filterLoop E reg ue [x] p with
    | fatal => rw [hx] at h; simp [Outcome.andThen] at h
    | panicked q => rw [hx] at h; simp [Outcome.andThen] at h
    | returned p1 err =>
      rw [hx] at h
      cases err with
      | some ev =>
        simp only [Outcome.andThen, Outcome.returned.injEq, Option.some.injEq] at h
        obtain ⟨h1, h2⟩ := filterLoop_single_error E reg ue x p p1 ev hx
        subst h1 h2
        refine ⟨h.2.symm, [], x, xs, rfl, ?_, ?_⟩
        · rw [← h.1]; rfl
        · rw [← h.1]; exact hx
      | none =>
        simp only [Outcome.andThen] at h
        obtain ⟨he, pre, y, post, hsplit, hpre, hy⟩ := ih p1 r e h
        refine ⟨he, x :: pre, y, post, by rw [hsplit]; rfl, ?_, hy⟩
        rw [filterLoop_cons_eq, hx]
        exact hpre

theorem extractStepVal_srcIface_of_ne (E : Env) (st : Pdr × List Nat) (e : PdiIE)
    (h : ∀ w, e ≠ .sourceInterface (some w)) :
    (extractStepVal E st e).1.srcIface = st.1.srcIface ∧
      (extractStepVal E st e).1.srcIfaceMask = st.1.srcIfaceMask := by
  cases e with
  | sourceInterface dec =>
    cases dec with
    | none => exact ⟨rfl, rfl⟩
    | some w => exact absurd rfl (h w)
  | fteid dec =>
    cases dec with
    | none => exact ⟨rfl, rfl⟩
    | some v => simp only [extractStepVal]; split <;> exact ⟨rfl, rfl⟩
  | ueIPAddress dec => cases dec <;> exact ⟨rfl, rfl⟩
  | qfi => exact ⟨rfl, rfl⟩
  | applicationID dec => exact ⟨rfl, rfl⟩
  | sdfFilter dec => exact ⟨rfl, rfl⟩
  | other t => exact ⟨rfl, rfl⟩

/-- The interface after the first loop, when every decodable source-interface element
carries the same value `v`, which sets the interface to `c`. -/
theorem extractLoopVal_srcIface (E : Env) (v c : Nat)
    (hstep : ∀ st, (extractStepVal E st (.sourceInterface (some v))).1.srcIface = c ∧
      (extractStepVal E st (.sourceInterface (some v))).1.srcIfaceMask = 0xFF)
    (ies : List PdiIE) :
    (∀ w, PdiIE.sourceInterface (some w) ∈ ies → w = v) →
    PdiIE.sourceInterface (some v) ∈ ies →
    ∀ st, (extractLoopVal E ies st).1.srcIface = c ∧
      (extractLoopVal E ies st).1.srcIfaceMask = 0xFF := by
  have key : ∀ (l : List PdiIE), (∀ w, PdiIE.sourceInterface (some w) ∈ l → w = v) →
      ∀ st, ((extractLoopVal E l st).1.srcIface = c ∧
          (extractLoopVal E l st).1.srcIfaceMask = 0xFF) ∨
        (PdiIE.sourceInterface (some v) ∉ l ∧
          (extractLoopVal E l st).1.srcIface = st.1.srcIface ∧
          (extractLoopVal E l st).1.srcIfaceMask = st.1.srcIfaceMask) := by
    intro l
    induction l with
    | nil => intro _ st; exact Or.inr ⟨by simp, rfl, rfl⟩
    | cons e es ih =>
      intro hall st
      have hall2 : ∀ w, PdiIE.sourceInterface (some w) ∈ es → w = v :=
        fun w hw => hall w (List.mem_cons_of_mem _ hw)
      rw [extractLoopVal_cons]
      by_cases he : ∃ w, e = .sourceInterface (some w)
      · obtain ⟨w, rfl⟩ := he
        have hw : w = v := hall w (List.mem_cons_self _ _)
        subst hw
        rcases ih hall2 (extractStepVal E st (.sourceInterface (some w))) with h1 | ⟨_, h2, h3⟩
        · exact Or.inl h1
        · exact Or.inl ⟨h2.trans (hstep st).1, h3.trans (hstep st).2⟩
      · have hne : ∀ w, e ≠ .sourceInterface (some w) := fun w hw => he ⟨w, hw⟩
        rcases ih hall2 (extractStepVal E st e) with h1 | ⟨hn, h2, h3⟩
        · exact Or.inl h1
        · refine Or.inr ⟨?_, ?_, ?_⟩
          · intro hmem
            rcases List.mem_cons.1 hmem with h | h
            · exact hne v h.symm
            · exact hn h
          · exact h2.trans (extractStepVal_srcIface_of_ne E st e hne).1
          · exact h3.trans (extractStepVal_srcIface_of_ne E st e hne).2
  intro hall hmem st
  rcases key ies hall st with h | ⟨hn, _⟩
  · exact h
  · exact absurd hmem hn

theorem extractStepVal_core (E : Env) (st : Pdr × List Nat) :
    (extractStepVal E st (.sourceInterface (some SrcInterfaceCore))).1.srcIface = E.core ∧
      (extractStepVal E st (.sourceInterface (some SrcInterfaceCore))).1.srcIfaceMask
        = 0xFF := by
  simp [extractStepVal, SrcInterfaceCore, SrcInterfaceAccess, SrcInterfaceCPFunction]

theorem extractStepVal_access (E : Env) (st : Pdr × List Nat) :
    (extractStepVal E st (.sourceInterface (some SrcInterfaceAccess))).1.srcIface = E.access ∧
      (extractStepVal E st (.sourceInterface (some SrcInterfaceAccess))).1.srcIfaceMask
        = 0xFF := by
  simp [extractStepVal, SrcInterfaceAccess, SrcInterfaceCPFunction]

theorem extractStepVal_ue_of_ne (E : Env) (st : Pdr × List Nat) (e : PdiIE)
    (h : ∀ w, e ≠ .ueIPAddress (some w)) : (extractStepVal E st e).2 = st.2 := by
  cases e with
  | sourceInterface dec =>
    cases dec with
    | none => rfl
    | some w => simp only [extractStepVal]; split <;> (try split) <;> (try split) <;> rfl
  | fteid dec =>
    cases dec with
    | none => rfl
    | some v => simp only [extractStepVal]; split <;> rfl
  | ueIPAddress dec =>
    cases dec with
    | none => rfl
    | some w => exact absurd rfl (h w)
  | qfi => rfl
  | applicationID dec => rfl
  | sdfFilter dec => rfl
  | other t => rfl

/-- The local `ueIP4` after the first loop, when every decodable UE IP address element
carries the same address `a`. -/
theorem extractLoopVal_ueIP4 (E : Env) (a : List Nat) (ies : List PdiIE) :
    (∀ w, PdiIE.ueIPAddress (some w) ∈ ies → w = ⟨a⟩) →
    PdiIE.ueIPAddress (some ⟨a⟩) ∈ ies →
    ∀ st, (extractLoopVal E ies st).2 = a := by
  have key : ∀ (l : List PdiIE), (∀ w, PdiIE.ueIPAddress (some w) ∈ l → w = ⟨a⟩) →
      ∀ st, (extractLoopVal E l st).2 = a ∨
        (PdiIE.ueIPAddress (some ⟨a⟩) ∉ l ∧ (extractLoopVal E l st).2 = st.2) := by
    intro l
    induction l with
    | nil => intro _ st; exact Or.inr ⟨by simp, rfl⟩
    | cons e es ih =>
      intro hall st
      have hall2 : ∀ w, PdiIE.ueIPAddress (some w) ∈ es → w = ⟨a⟩ :=
        fun w hw => hall w (List.mem_cons_of_mem _ hw)
      rw [extractLoopVal_cons]
      by_cases he : ∃ w, e = .ueIPAddress (some w)
      · obtain ⟨w, rfl⟩ := he
        have hw : w = ⟨a⟩ := hall w (List.mem_cons_self _ _)
        subst hw
        rcases ih hall2 (extractStepVal E st (.ueIPAddress (some ⟨a⟩))) with h1 | ⟨_, h2⟩
        · exact Or.inl h1
        · exact Or.inl (h2.trans rfl)
      · have hne : ∀ w, e ≠ .ueIPAddress (some w) := fun w hw => he ⟨w, hw⟩
        rcases ih hall2 (extractStepVal E st e) with h1 | ⟨hn, h2⟩
        · exact Or.inl h1
        · refine Or.inr ⟨?_, h2.trans (extractStepVal_ue_of_ne E st e hne)⟩
          intro hmem
          rcases List.mem_cons.1 hmem with h | h
          · exact hne _ h.symm
          · exact hn h
  intro hall hmem st
  rcases key ies hall st with h | ⟨hn, _⟩
  · exact h
  · exact absurd hmem hn

/-- The second loop only looks at application identifiers and SDF filters. -/
theorem filterLoop_filterElems (E : Env) (reg : Registry) (ue : List Nat)
    (ies : List PdiIE) (p : Pdr) :
    filterLoop E reg ue ies p = filterLoop E reg ue (ies.filter PdiIE.isFilterElem) p :=
  (filterLoop_filter E reg ue PdiIE.isFilterElem
    (fun e he rest q => filterLoop_skip_of_not_filterElem E reg ue e he rest q) ies p).symm

theorem filterLoop_single_sdf (E : Env) (reg : Registry) (ue : List Nat) (d : String)
    (f : IpFilterRule) (p : Pdr) (hd : d ≠ "")
    (hparse : E.parseFlowDesc d (E.ipString ue) = some f) :
    filterLoop E reg ue [.sdfFilter (some ⟨d⟩)] p = .returned (applySDF E f p) none := by
  simp [filterLoop, hd, hparse]

/-- The scan of a registry record stops at the first description whose direction
matches; the descriptions after it are not looked at. -/
theorem flowDescLoop_first_match (E : Env) (ue : List Nat) (pre : List String) (d : String)
    (post : List String) (p : Pdr) (f : IpFilterRule)
    (hpre : ∀ x ∈ pre, ∃ g, E.parseFlowDesc x (E.ipString ue) = some g ∧ ¬ dirMatches E p g)
    (hd : E.parseFlowDesc d (E.ipString ue) = some f) (hm : dirMatches E p f) :
    flowDescLoop E ue (pre ++ d :: post) p = (applyPFD E f p, none) := by
  induction pre with
  | nil => simp [flowDescLoop, hd, hm]
  | cons x xs ih =>
    obtain ⟨g, hg, hng⟩ := hpre x (List.mem_cons_self _ _)
    simp only [List.cons_append, flowDescLoop, hg, hng, if_false]
    exact ih (fun y hy => hpre y (List.mem_cons_of_mem _ hy))

theorem filterLoop_single_app (E : Env) (reg : Registry) (ue : List Nat) (appID : String)
    (pre : List String) (d : String) (post : List String) (p : Pdr) (f : IpFilterRule)
    (hreg : reg appID = some ⟨appID, pre ++ d :: post⟩)
    (hpre : ∀ x ∈ pre, ∃ g, E.parseFlowDesc x (E.ipString ue) = some g ∧ ¬ dirMatches E p g)
    (hd : E.parseFlowDesc d (E.ipString ue) = some f) (hm : dirMatches E p f) :
    filterLoop E reg ue [.applicationID (some appID)] p
      = .returned (applyPFD E f p) none := by
  simp [filterLoop, hreg, flowDescLoop_first_match E ue pre d post p f hpre hd hm]

/-- The direction test of line 154 on an access-side rule, when the two interface
constants differ. -/
theorem dirMatches_access (E : Env) (hne : E.access ≠ E.core) (p : Pdr)
    (hp : p.srcIface = E.access) (g : IpFilterRule) :
    dirMatches E p g ↔ g.direction = "out" := by
  simp [dirMatches, hp, hne]

/-- The direction test of line 154 on a core-side rule, when the two interface constants
differ. -/
theorem dirMatches_core (E : Env) (hne : E.access ≠ E.core) (p : Pdr)
    (hp : p.srcIface = E.core) (g : IpFilterRule) :
    dirMatches E p g ↔ g.direction = "in" := by
  simp [dirMatches, hp, Ne.symm hne]

/-- The direction that line 154 asks for on an interface decoded as `v`. -/
theorem dirMatches_wanted (E : Env) (hne : E.access ≠ E.core) (v : Nat)
    (hv : v = SrcInterfaceAccess ∨ v = SrcInterfaceCore) (p : Pdr)
    (hp : p.srcIface = if v = SrcInterfaceAccess then E.access else E.core)
    (g : IpFilterRule) :
    dirMatches E p g ↔ g.direction = if v = SrcInterfaceAccess then "out" else "in" := by
  rcases hv with rfl | rfl
  · simp only [if_true] at hp ⊢
    exact dirMatches_access E hne p hp g
  · have : ¬ SrcInterfaceCore = SrcInterfaceAccess := by decide
    simp only [this, if_false] at hp ⊢
    exact dirMatches_core E hne p hp g

/-- The interface after the first loop and the UE-address block, when every decodable
source-interface element carries `v`, access-side or core-side. -/
theorem srcIface_after_extract (E : Env) (v : Nat)
    (hv : v = SrcInterfaceAccess ∨ v = SrcInterfaceCore) (ies : List PdiIE)
    (hall : ∀ w, PdiIE.sourceInterface (some w) ∈ ies → w = v)
    (hmem : PdiIE.sourceInterface (some v) ∈ ies) (st : Pdr × List Nat) :
    (ueFallback E (extractLoopVal E ies st)).srcIface
      = if v = SrcInterfaceAccess then E.access else E.core := by
  rw [ueFallback_kept E _ _ srcIface_mem_kept]
  rcases hv with rfl | rfl
  · simp only [if_true]
    exact (extractLoopVal_srcIface E _ _ (extractStepVal_access E) ies hall hmem st).1
  · have : ¬ SrcInterfaceCore = SrcInterfaceAccess := by decide
    simp only [this, if_false]
    exact (extractLoopVal_srcIface E _ _ (extractStepVal_core E) ies hall hmem st).1

theorem extractLoop_filter (E : Env) (keep : PdiIE → Bool)
    (hdrop : ∀ e, keep e = false → ∀ st, extractStep E st e = .done st) (ies : List PdiIE) :
    ∀ st, extractLoop E (ies.filter keep) st = extractLoop E ies st := by
  induction ies with
  | nil => intro st; rfl
  | cons e es ih =>
    intro st
    cases hk : keep e with
    | true =>
      simp only [List.filter, hk, extractLoop]
      cases extractStep E st e with
      | done st1 => exact ih st1
      | panicked q => rfl
    | false =>
      simp only [List.filter, hk, extractLoop, hdrop e hk st]
      exact ih st

/-- Dropping elements that neither loop acts on does not change `parsePDI`. -/
theorem parsePDI_filter (E : Env) (reg : Registry) (keep : PdiIE → Bool)
    (h1 : ∀ e, keep e = false → ∀ st, extractStep E st e = .done st)
    (h2 : ∀ e, keep e = false → ∀ ue rest p,
      filterLoop E reg ue (e :: rest) p = filterLoop E reg ue rest p)
    (ies : List PdiIE) (p : Pdr) :
    parsePDI E (ies.filter keep) reg p = parsePDI E ies reg p := by
  unfold parsePDI
  rw [extractLoop_filter E keep h1 ies]
  cases extractLoop E ies (p, []) with
  | panicked q => rfl
  | done st => exact filterLoop_filter E reg _ keep (fun e he => h2 e he _) ies _

theorem extractStep_zeroTEID (E : Env) (e : PdiIE) (h : (!e.isZeroTEID) = false)
    (st : Pdr × List Nat) : extractStep E st e = .done st := by
  cases e with
  | fteid dec =>
    cases dec with
    | none => rfl
    | some v =>
      have h0 : v.TEID = 0 := by simpa [PdiIE.isZeroTEID] using h
      simp [extractStep, h0]
  | ueIPAddress dec => simp [PdiIE.isZeroTEID] at h
  | sourceInterface dec => simp [PdiIE.isZeroTEID] at h
  | qfi => rfl
  | applicationID dec => rfl
  | sdfFilter dec => rfl
  | other t => rfl

theorem filterLoop_zeroTEID (E : Env) (reg : Registry) (e : PdiIE)
    (h : (!e.isZeroTEID) = false) (ue : List Nat) (rest : List PdiIE) (p : Pdr) :
    filterLoop E reg ue (e :: rest) p = filterLoop E reg ue rest p := by
  cases e <;> simp [PdiIE.isZeroTEID] at h
  simp [filterLoop]

theorem extractStep_absentApp (E : Env) (reg : Registry) (e : PdiIE)
    (h : (!e.isAbsentApp reg) = false) (st : Pdr × List Nat) :
    extractStep E st e = .done st := by
  cases e <;> simp [PdiIE.isAbsentApp] at h
  rfl

theorem filterLoop_absentApp (E : Env) (reg : Registry) (e : PdiIE)
    (h : (!e.isAbsentApp reg) = false) (ue : List Nat) (rest : List PdiIE) (p : Pdr) :
    filterLoop E reg ue (e :: rest) p = filterLoop E reg ue rest p := by
  cases e with
  | applicationID dec =>
    cases dec with
    | none => simp [PdiIE.isAbsentApp] at h
    | some appID =>
      have h0 : reg appID = none := by simpa [PdiIE.isAbsentApp] using h
      simp [filterLoop, h0]
  | ueIPAddress dec => simp [PdiIE.isAbsentApp] at h
  | sourceInterface dec => simp [PdiIE.isAbsentApp] at h
  | fteid dec => simp [PdiIE.isAbsentApp] at h
  | qfi => simp [PdiIE.isAbsentApp] at h
  | sdfFilter dec => simp [PdiIE.isAbsentApp] at h
  | other t => simp [PdiIE.isAbsentApp] at h

/-- Dropping PDI elements that `parsePDI` does not act on does not change `parsePDR`. -/
theorem parsePDR_filterPDI (E : Env) (reg : Registry) (keep : PdiIE → Bool)
    (h : ∀ ies p, parsePDI E (ies.filter keep) reg p = parsePDI E ies reg p)
    (ie1 : PdrIE) (seid : Nat) (p : Pdr) :
    parsePDR E (ie1.filterPDI keep) seid reg p = parsePDR E ie1 seid reg p := by
  unfold parsePDR PdrIE.filterPDI
  simp only
  cases ie1.PDRID with
  | none => rfl
  | some pdrID =>
    cases ie1.Precedence with
    | none => rfl
    | some precedence =>
      cases ie1.PDI with
      | none => rfl
      | some pdi => simp only [Option.map_some', h]

theorem extractStepVal_tunnel_imp (E : Env) (st : Pdr × List Nat) (e : PdiIE)
    (h : st.1.tunnelTEIDMask ≠ 0 → st.1.tunnelIP4DstMask ≠ 0) :
    (extractStepVal E st e).1.tunnelTEIDMask ≠ 0 →
      (extractStepVal E st e).1.tunnelIP4DstMask ≠ 0 := by
  cases e with
  | fteid dec =>
    cases dec with
    | none => exact h
    | some v =>
      simp only [extractStepVal]
      split
      · intro _; simp
      · exact h
  | sourceInterface dec =>
    cases dec with
    | none => exact h
    | some v => simp only [extractStepVal]; split <;> (try split) <;> (try split) <;> exact h
  | ueIPAddress dec => cases dec <;> exact h
  | qfi => exact h
  | applicationID dec => exact h
  | sdfFilter dec => exact h
  | other t => exact h

theorem extractLoopVal_tunnel_imp (E : Env) (ies : List PdiIE) :
    ∀ st : Pdr × List Nat, (st.1.tunnelTEIDMask ≠ 0 → st.1.tunnelIP4DstMask ≠ 0) →
      (extractLoopVal E ies st).1.tunnelTEIDMask ≠ 0 →
        (extractLoopVal E ies st).1.tunnelIP4DstMask ≠ 0 := by
  induction ies with
  | nil => intro st h; exact h
  | cons e es ih =>
    intro st h
    rw [extractLoopVal_cons]
    exact ih _ (extractStepVal_tunnel_imp E st e h)

theorem extractStepVal_tunnel_together (E : Env) (st : Pdr × List Nat) (e : PdiIE)
    (h : st.1.tunnelMasksTogether) : (extractStepVal E st e).1.tunnelMasksTogether := by
  cases e with
  | fteid dec =>
    cases dec with
    | none => exact h
    | some v =>
      simp only [extractStepVal]
      split
      · exact Or.inr ⟨rfl, rfl⟩
      · exact h
  | sourceInterface dec =>
    cases dec with
    | none => exact h
    | some v => simp only [extractStepVal]; split <;> (try split) <;> (try split) <;> exact h
  | ueIPAddress dec => cases dec <;> exact h
  | qfi => exact h
  | applicationID dec => exact h
  | sdfFilter dec => exact h
  | other t => exact h

theorem extractLoopVal_tunnel_together (E : Env) (ies : List PdiIE) :
    ∀ st : Pdr × List Nat, st.1.tunnelMasksTogether →
      (extractLoopVal E ies st).1.tunnelMasksTogether := by
  induction ies with
  | nil => intro st h; exact h
  | cons e es ih =>
    intro st h
    rw [extractLoopVal_cons]
    exact ih _ (extractStepVal_tunnel_together E st e h)

/-- The tunnel masks after `parsePDI` are those the first loop left. -/
theorem parsePDI_tunnel_masks (E : Env) (ies : List PdiIE) (reg : Registry) (p r : Pdr)
    (e : Option GoError) (h : parsePDI E ies reg p = .returned r e) :
    r.tunnelTEIDMask = (extractLoopVal E ies (p, [])).1.tunnelTEIDMask ∧
      r.tunnelIP4DstMask = (extractLoopVal E ies (p, [])).1.tunnelIP4DstMask := by
  obtain ⟨_, h⟩ := parsePDI_returned E ies reg p r e h
  have h1 := filterLoop_kept E reg _ ies _ r e h
  have h2 := ueFallback_kept E (extractLoopVal E ies (p, []))
  simp only [Pdr.keptByFilters, List.forall_mem_cons] at h1 h2
  exact ⟨h1.2.2.2.2.2.2.2.1.trans h2.2.2.2.2.2.2.2.1,
    h1.2.2.2.2.2.2.1.trans h2.2.2.2.2.2.2.1⟩

/-- The tunnel masks after `parsePDR` are those of the rule before it or those
`parsePDI` left. -/
theorem parsePDR_tunnel_masks (E : Env) (ie1 : PdrIE) (seid : Nat) (reg : Registry)
    (p r : Pdr) (e : Option GoError) (h : parsePDR E ie1 seid reg p = .returned r e) :
    (r.tunnelTEIDMask = p.tunnelTEIDMask ∧ r.tunnelIP4DstMask = p.tunnelIP4DstMask) ∨
      ∃ pdi r1 e1, parsePDI E pdi reg p = .returned r1 e1 ∧
        r.tunnelTEIDMask = r1.tunnelTEIDMask ∧
        r.tunnelIP4DstMask = r1.tunnelIP4DstMask := by
  unfold parsePDR at h
  cases h1 : ie1.PDRID with
  | none => rw [h1] at h; simp only [Outcome.returned.injEq] at h; rw [← h.1]; simp
  | some pdrID =>
    cases h2 : ie1.Precedence with
    | none =>
      rw [h1, h2] at h; simp only [Outcome.returned.injEq] at h; rw [← h.1]; simp
    | some precedence =>
      cases h3 : ie1.PDI with
      | none =>
        rw [h1, h2, h3] at h; simp only [Outcome.returned.injEq] at h; rw [← h.1]; simp
      | some pdi =>
        rw [h1, h2, h3] at h
        simp only at h
        cases h4 : parsePDI E pdi reg p with
        | fatal => rw [h4] at h; cases h
        | panicked q => rw [h4] at h; cases h
        | returned r1 e1 =>
          rw [h4] at h
          simp only at h
          refine Or.inr ⟨pdi, r1, e1, h4, ?_⟩
          split at h
          · simp only [Outcome.returned.injEq] at h; rw [← h.1]; simp
          · cases h5 : ie1.FARID with
            | none =>
              rw [h5] at h; simp only [Outcome.returned.injEq] at h; rw [← h.1]; simp
            | some farID =>
              rw [h5] at h; simp only [Outcome.returned.injEq] at h; rw [← h.1]; simp

theorem filterLoop_append (E : Env) (reg : Registry) (ue : List Nat) (xs ys : List PdiIE) :
    ∀ p, filterLoop E reg ue (xs ++ ys) p
      = (filterLoop E reg ue xs p).andThen (filterLoop E reg ue ys) := by
  induction xs with
  | nil => intro p; rfl
  | cons x xs ih =>
    intro p
    rw [List.cons_append, filterLoop_cons_eq, filterLoop_cons_eq E reg ue x xs]
    cases filterLoop E reg ue [x] p with
    | fatal => rfl
    | panicked q => rfl
    | returned p1 err =>
      cases err with
      | none => exact ih p1
      | some ev => rfl

theorem applySDF_proto (E : Env) (f : IpFilterRule) (p : Pdr) :
    (f.proto ≠ E.reservedProto →
      (applySDF E f p).proto = f.proto ∧ (applySDF E f p).protoMask = E.reservedProto) ∧
    (f.proto = E.reservedProto →
      (applySDF E f p).proto = p.proto ∧ (applySDF E f p).protoMask = p.protoMask) := by
  constructor
  · intro h
    simp only [applySDF, h, ne_eq, not_false_eq_true, if_true]
    split <;> (try split) <;> exact ⟨rfl, rfl⟩
  · intro h
    simp only [applySDF, h, ne_eq, not_true_eq_false, if_false]
    split <;> (try split) <;> exact ⟨rfl, rfl⟩

theorem applyPFD_proto (E : Env) (f : IpFilterRule) (p : Pdr) :
    (f.proto ≠ E.reservedProto →
      (applyPFD E f p).proto = f.proto ∧ (applyPFD E f p).protoMask = E.reservedProto) ∧
    (f.proto = E.reservedProto →
      (applyPFD E f p).proto = p.proto ∧ (applyPFD E f p).protoMask = p.protoMask) := by
  constructor
  · intro h
    simp [applyPFD, h]
  · intro h
    simp [applyPFD, h]

theorem filterLoop_single_fatal_iff (E : Env) (reg : Registry) (ue : List Nat) (x : PdiIE)
    (p : Pdr) : filterLoop E reg ue [x] p = .fatal ↔ Mismatched reg x := by
  cases x with
  | applicationID dec =>
    cases dec with
    | none => simp [filterLoop, Mismatched]
    | some appID =>
      simp only [filterLoop, Mismatched]
      cases hreg : reg appID with
      | none => simp [hreg]
      | some apfd =>
        simp only
        by_cases hne : appID ≠ apfd.appID
        · rw [if_pos hne]
          exact ⟨fun _ => ⟨appID, apfd, rfl, hreg, hne⟩, fun _ => rfl⟩
        · rw [if_neg hne]
          constructor
          · intro h
            cases hfl : flowDescLoop E ue apfd.flowDescs p with
            | mk p1 err => rw [hfl] at h; cases err <;> simp at h
          · rintro ⟨a, r, ha, hr, hn⟩
            simp only [PdiIE.applicationID.injEq, Option.some.injEq] at ha
            subst ha
            rw [hreg] at hr
            simp only [Option.some.injEq] at hr
            subst hr
            exact absurd hn hne
  | sdfFilter dec =>
    cases dec with
    | none => simp [filterLoop, Mismatched]
    | some sdf =>
      simp only [filterLoop, Mismatched]
      split
      · simp
      · cases E.parseFlowDesc sdf.FlowDescription (E.ipString ue) <;> simp
  | ueIPAddress dec => simp [filterLoop, Mismatched]
  | sourceInterface dec => simp [filterLoop, Mismatched]
  | fteid dec => simp [filterLoop, Mismatched]
  | qfi => simp [filterLoop, Mismatched]
  | other t => simp [filterLoop, Mismatched]

/-- The second loop ends the process exactly when, the elements before it having been
processed without error, it reaches a mismatched application identifier. -/
theorem filterLoop_fatal_iff (E : Env) (reg : Registry) (ue : List Nat) (ies : List PdiIE) :
    ∀ p, filterLoop E reg ue ies p = .fatal ↔
      ∃ pre x post b1, ies = pre ++ x :: post ∧
        filterLoop E reg ue pre p = .returned b1 none ∧ Mismatched reg x := by
  induction ies with
  | nil =>
    intro p
    simp [filterLoop]
  | cons y ys ih =>
    intro p
    rw [filterLoop_cons_eq]
    constructor
    · intro h
      cases hy : filterLoop E reg ue [y] p with
      | fatal =>
        exact ⟨[], y, ys, p, rfl, rfl, (filterLoop_single_fatal_iff E reg ue y p).1 hy⟩
      | panicked q => exact absurd hy (filterLoop_ne_panicked E reg ue [y] p q)
      | returned p1 err =>
        rw [hy] at h
        cases err with
        | some ev => simp [Outcome.andThen] at h
        | none =>
          simp only [Outcome.andThen] at h
          obtain ⟨pre, x, post, b1, hsplit, hpre, hx⟩ := (ih p1).1 h
          refine ⟨y :: pre, x, post, b1, by rw [hsplit]; rfl, ?_, hx⟩
          rw [filterLoop_cons_eq, hy]
          exact hpre
    · rintro ⟨pre, x, post, b1, hsplit, hpre, hx⟩
      cases pre with
      | nil =>
        simp only [List.nil_append, List.cons.injEq] at hsplit
        obtain ⟨rfl, rfl⟩ := hsplit
        simp only [filterLoop, Outcome.returned.injEq, and_true] at hpre
        rw [(filterLoop_single_fatal_iff E reg ue y p).2 hx]
        rfl
      | cons z zs =>
        simp only [List.cons_append, List.cons.injEq] at hsplit
        obtain ⟨rfl, rfl⟩ := hsplit
        rw [filterLoop_cons_eq] at hpre
        cases hy : filterLoop E reg ue [y] p with
        | fatal => rfl
        | panicked q => exact absurd hy (filterLoop_ne_panicked E reg ue [y] p q)
        | returned p1 err =>
          rw [hy] at hpre
          cases err with
          | some ev => simp [Outcome.andThen] at hpre
          | none =>
            simp only [Outcome.andThen] at hpre ⊢
            exact (ih p1).2 ⟨zs, x, post, b1, rfl, hpre, hx⟩

theorem not_mismatched_of_consistent (reg : Registry) (hreg : RegistryConsistent reg)
    (x : PdiIE) : ¬ Mismatched reg x := by
  rintro ⟨appID, apfd, _, hr, hn⟩
  exact hn (hreg appID apfd hr).symm

/-- With a consistent registry and no panicking element `parsePDI` returns, and its
error is nil or `errBadFilterDesc`. -/
theorem parsePDI_returns (E : Env) (ies : List PdiIE) (reg : Registry)
    (hreg : RegistryConsistent reg) (hn : NoPanic E ies) (p : Pdr) :
    ∃ r, parsePDI E ies reg p = .returned r none ∨
      parsePDI E ies reg p = .returned r (some .errBadFilterDesc) := by
  rw [parsePDI_of_noPanic E ies reg p hn]
  cases h : filterLoop E reg (extractLoopVal E ies (p, [])).2 ies
      (ueFallback E (extractLoopVal E ies (p, []))) with
  | fatal =>
    obtain ⟨_, x, _, _, _, _, hx⟩ := (filterLoop_fatal_iff E reg _ ies _).1 h
    exact absurd hx (not_mismatched_of_consistent reg hreg x)
  | panicked q => exact absurd h (filterLoop_ne_panicked E reg _ ies _ q)
  | returned r e =>
    cases e with
    | none => exact ⟨r, Or.inl rfl⟩
    | some ev =>
      obtain ⟨he, _⟩ := filterLoop_error_split E reg _ ies _ r ev h
      subst he
      exact ⟨r, Or.inr rfl⟩

/-- The error that `parsePDI` returns is nil or `errBadFilterDesc`. -/
theorem parsePDI_error_cases (E : Env) (ies : List PdiIE) (reg : Registry) (p r : Pdr)
    (e : Option GoError) (h : parsePDI E ies reg p = .returned r e) :
    e = none ∨ e = some .errBadFilterDesc := by
  cases e with
  | none => exact Or.inl rfl
  | some ev =>
    obtain ⟨_, h⟩ := parsePDI_returned E ies reg p r _ h
    obtain ⟨he, _⟩ := filterLoop_error_split E reg _ ies _ r ev h
    subst he
    exact Or.inr rfl

/-- What `parsePDR` does once the rule identifier, the precedence and the PDI have been
read and `parsePDI` has returned. -/
theorem parsePDR_after_parsePDI (E : Env) (ie1 : PdrIE) (seid : Nat) (reg : Registry)
    (p r1 : Pdr) (e1 : Option GoError) (pdrID precedence : Nat) (pdi : List PdiIE)
    (hid : ie1.PDRID = some pdrID) (hprec : ie1.Precedence = some precedence)
    (hpdi : ie1.PDI = some pdi) (h : parsePDI E pdi reg p = .returned r1 e1) :
    parsePDR E ie1 seid reg p =
      .returned
        (match ie1.FARID with
          | none => r1
          | some farID =>
            { r1 with
                precedence := precedence, pdrID := pdrID, fseID := seid % 2 ^ 32,
                ctrID := 0, farID := farID,
                needDecap := if ie1.OuterHeaderRemovalDescription = some 0 then 1 else 0 })
        none := by
  unfold parsePDR
  rw [hid, hprec, hpdi]
  simp only [h]
  rcases parsePDI_error_cases E pdi reg p r1 e1 h with rfl | rfl
  · cases ie1.FARID <;> simp
  · cases ie1.FARID <;> simp

/-- The fields that `parsePDI` does not assign are as before the call. -/
theorem parsePDI_kept (E : Env) (ies : List PdiIE) (reg : Registry) (p r : Pdr)
    (e : Option GoError) (h : parsePDI E ies reg p = .returned r e) :
    r.srcPort = p.srcPort ∧ r.dstPort = p.dstPort ∧ r.srcPortMask = p.srcPortMask ∧
      r.dstPortMask = p.dstPortMask ∧ r.precedence = p.precedence ∧ r.pdrID = p.pdrID ∧
      r.fseID = p.fseID ∧ r.ctrID = p.ctrID ∧ r.farID = p.farID ∧
      r.needDecap = p.needDecap := by
  obtain ⟨_, h⟩ := parsePDI_returned E ies reg p r e h
  have h1 := filterLoop_kept E reg _ ies _ r e h
  have h2 := ueFallback_kept E (extractLoopVal E ies (p, []))
  have h3 := extractLoopVal_kept E ies (p, [])
  simp only [Pdr.keptByFilters, Pdr.keptByExtract, List.forall_mem_cons] at h1 h2 h3
  obtain ⟨-, -, -, a1, a2, -, -, -, a3, a4, a5, a6, a7, a8, a9, a10, -⟩ := h1
  obtain ⟨-, -, -, b1, b2, -, -, -, b3, b4, b5, b6, b7, b8, b9, b10, -⟩ := h2
  obtain ⟨-, -, c1, c2, -, -, -, c3, c4, -, c5, c6, c7, c8, c9, c10, -⟩ := h3
  exact ⟨a1.trans (b1.trans c1), a2.trans (b2.trans c2), a3.trans (b3.trans c3),
    a4.trans (b4.trans c4), a5.trans (b5.trans c5), a6.trans (b6.trans c6),
    a7.trans (b7.trans c7), a8.trans (b8.trans c8), a9.trans (b9.trans c9),
    a10.trans (b10.trans c10)⟩

theorem parsePDR_early_return (E : Env) (ie1 : PdrIE) (seid : Nat) (reg : Registry)
    (p : Pdr)
    (h : ie1.PDRID = none ∨ ie1.Precedence = none ∨ ie1.PDI = none) :
    parsePDR E ie1 seid reg p = .returned p none := by
  unfold parsePDR
  cases h1 : ie1.PDRID with
  | none => rfl
  | some pdrID =>
    cases h2 : ie1.Precedence with
    | none => rfl
    | some precedence =>
      cases h3 : ie1.PDI with
      | none => rfl
      | some pdi =>
        rw [h1, h2, h3] at h
        simp at h

theorem dirMatches_congr (E : Env) (p q : Pdr) (h : p.srcIface = q.srcIface)
    (g : IpFilterRule) : dirMatches E p g ↔ dirMatches E q g := by
  simp [dirMatches, h]

theorem rejectedBeforeMatch_congr (E : Env) (ue : List Nat) (p q : Pdr)
    (h : p.srcIface = q.srcIface) (ds : List String) :
    RejectedBeforeMatch E ue p ds ↔ RejectedBeforeMatch E ue q ds := by
  unfold RejectedBeforeMatch
  simp only [dirMatches_congr E p q h]

theorem triggering_congr (E : Env) (reg : Registry) (ue : List Nat) (p q : Pdr)
    (h : p.srcIface = q.srcIface) (x : PdiIE) :
    Triggering E reg ue p x ↔ Triggering E reg ue q x := by
  cases x with
  | applicationID dec =>
    cases dec with
    | none => simp [Triggering]
    | some appID => simp only [Triggering, rejectedBeforeMatch_congr E ue p q h]
  | sdfFilter dec => cases dec <;> simp [Triggering]
  | ueIPAddress dec => simp [Triggering]
  | sourceInterface dec => simp [Triggering]
  | fteid dec => simp [Triggering]
  | qfi => simp [Triggering]
  | other t => simp [Triggering]

/-- The scan of a record fails exactly when it meets a rejected description before any
description whose direction matches. -/
theorem flowDescLoop_error_iff (E : Env) (ue : List Nat) (ds : List String) (p : Pdr) :
    ((flowDescLoop E ue ds p).2 ≠ none ↔ RejectedBeforeMatch E ue p ds) := by
  induction ds with
  | nil =>
    simp only [flowDescLoop, ne_eq, not_true_eq_false, false_iff]
    rintro ⟨pre, d, post, h, _⟩
    simp at h
  | cons x xs ih =>
    simp only [flowDescLoop]
    cases hx : E.parseFlowDesc x (E.ipString ue) with
    | none =>
      simp only [ne_eq, reduceCtorEq, not_false_eq_true, true_iff]
      exact ⟨[], x, xs, rfl, hx, by simp⟩
    | some g =>
      simp only
      by_cases hm : dirMatches E p g
      · simp only [hm, if_true, ne_eq, not_true_eq_false, false_iff]
        rintro ⟨pre, d, post, hsplit, hd, hpre⟩
        cases pre with
        | nil =>
          simp only [List.nil_append, List.cons.injEq] at hsplit
          rw [hsplit.1, hd] at hx
          simp at hx
        | cons z zs =>
          simp only [List.cons_append, List.cons.injEq] at hsplit
          exact hpre z (List.mem_cons_self _ _) g (by rw [← hsplit.1]; exact hx) hm
      · simp only [hm, if_false]
        rw [ih]
        constructor
        · rintro ⟨pre, d, post, hsplit, hd, hpre⟩
          refine ⟨x :: pre, d, post, by rw [hsplit]; rfl, hd, ?_⟩
          intro y hy g2 hg2
          rcases List.mem_cons.1 hy with rfl | hy
          · rw [hx] at hg2
            simp only [Option.some.injEq] at hg2
            rw [← hg2]
            exact hm
          · exact hpre y hy g2 hg2
        · rintro ⟨pre, d, post, hsplit, hd, hpre⟩
          cases pre with
          | nil =>
            simp only [List.nil_append, List.cons.injEq] at hsplit
            rw [hsplit.1, hd] at hx
            simp at hx
          | cons z zs =>
            simp only [List.cons_append, List.cons.injEq] at hsplit
            exact ⟨zs, d, post, hsplit.2, hd,
              fun y hy => hpre y (List.mem_cons_of_mem _ hy)⟩

/-- With a consistent registry, one element makes the second loop fail exactly when it
is triggering, and otherwise the loop goes on with a rule of the same interface. -/
theorem filterLoop_single_cases (E : Env) (reg : Registry) (hreg : RegistryConsistent reg)
    (ue : List Nat) (x : PdiIE) (p : Pdr) :
    (Triggering E reg ue p x ∧
        filterLoop E reg ue [x] p = .returned p (some .errBadFilterDesc)) ∨
      (¬ Triggering E reg ue p x ∧
        ∃ p1, filterLoop E reg ue [x] p = .returned p1 none ∧ p1.srcIface = p.srcIface) := by
  cases hx : filterLoop E reg ue [x] p with
  | fatal =>
    exact absurd ((filterLoop_single_fatal_iff E reg ue x p).1 hx)
      (not_mismatched_of_consistent reg hreg x)
  | panicked q => exact absurd hx (filterLoop_ne_panicked E reg ue [x] p q)
  | returned p1 err =>
    have hk : p1.srcIface = p.srcIface :=
      filterLoop_kept E reg ue [x] p p1 err hx _ srcIface_mem_kept
    have htrig : Triggering E reg ue p x ↔ err ≠ none := by
      cases x with
      | applicationID dec =>
        cases dec with
        | none =>
          simp only [filterLoop, Outcome.returned.injEq] at hx
          simp [Triggering, ← hx.2]
        | some appID =>
          simp only [filterLoop] at hx
          simp only [Triggering]
          cases hr : reg appID with
          | none =>
            rw [hr] at hx
            simp only [Outcome.returned.injEq] at hx
            simp [← hx.2]
          | some apfd =>
            rw [hr] at hx
            simp only at hx
            rw [if_neg (not_not.mpr (hreg appID apfd hr).symm)] at hx
            have hiff := flowDescLoop_error_iff E ue apfd.flowDescs p
            cases hfl : flowDescLoop E ue apfd.flowDescs p with
            | mk q e2 =>
              rw [hfl] at hx hiff
              simp only at hiff
              cases e2 with
              | none =>
                simp only [filterLoop, Outcome.returned.injEq] at hx
                simp only [Option.some.injEq, exists_eq_left', ← hiff, ← hx.2]
              | some ev =>
                simp only [Outcome.returned.injEq] at hx
                simp only [Option.some.injEq, exists_eq_left', ← hiff, ← hx.2]
      | sdfFilter dec =>
        cases dec with
        | none =>
          simp only [filterLoop, Outcome.returned.injEq] at hx
          simp [Triggering, ← hx.2]
        | some sdf =>
          simp only [filterLoop] at hx
          simp only [Triggering]
          by_cases hd : sdf.FlowDescription = ""
          · rw [if_pos hd] at hx
            simp only [Outcome.returned.injEq] at hx
            simp [hd, ← hx.2]
          · rw [if_neg hd] at hx
            cases hp : E.parseFlowDesc sdf.FlowDescription (E.ipString ue) with
            | none =>
              rw [hp] at hx
              simp only [Outcome.returned.injEq] at hx
              simp [hd, ← hx.2]
            | some g =>
              rw [hp] at hx
              simp only [filterLoop, Outcome.returned.injEq] at hx
              simp [← hx.2]
      | ueIPAddress dec =>
        simp only [filterLoop, Outcome.returned.injEq] at hx
        simp [Triggering, ← hx.2]
      | sourceInterface dec =>
        simp only [filterLoop, Outcome.returned.injEq] at hx
        simp [Triggering, ← hx.2]
      | fteid dec =>
        simp only [filterLoop, Outcome.returned.injEq] at hx
        simp [Triggering, ← hx.2]
      | qfi =>
        simp only [filterLoop, Outcome.returned.injEq] at hx
        simp [Triggering, ← hx.2]
      | other t =>
        simp only [filterLoop, Outcome.returned.injEq] at hx
        simp [Triggering, ← hx.2]
    cases err with
    | none => exact Or.inr ⟨fun h => (htrig.1 h) rfl, p1, rfl, hk⟩
    | some ev =>
      obtain ⟨h1, h2⟩ := filterLoop_single_error E reg ue x p p1 ev hx
      subst h1 h2
      exact Or.inl ⟨htrig.2 (by simp), rfl⟩

/-- With a consistent registry the second loop fails exactly when the list holds a
triggering element, and returns nil otherwise. -/
theorem filterLoop_error_iff (E : Env) (reg : Registry) (hreg : RegistryConsistent reg)
    (ue : List Nat) (b : Pdr) (ies : List PdiIE) :
    ∀ p, p.srcIface = b.srcIface →
      ((∃ x ∈ ies, Triggering E reg ue b x) ∧
          ∃ r, filterLoop E reg ue ies p = .returned r (some .errBadFilterDesc)) ∨
        ((¬ ∃ x ∈ ies, Triggering E reg ue b x) ∧
          ∃ r, filterLoop E reg ue ies p = .returned r none) := by
  induction ies with
  | nil =>
    intro p _
    exact Or.inr ⟨by simp, p, rfl⟩
  | cons y ys ih =>
    intro p hp
    rw [filterLoop_cons_eq]
    rcases filterLoop_single_cases E reg hreg ue y p with ⟨ht, hy⟩ | ⟨hnt, p1, hy, hp1⟩
    · refine Or.inl ⟨⟨y, List.mem_cons_self _ _, (triggering_congr E reg ue p b hp y).1 ht⟩,
        p, ?_⟩
      rw [hy]
      rfl
    · rw [hy]
      simp only [Outcome.andThen]
      rcases ih p1 (hp1.trans hp) with ⟨⟨x, hx, hxt⟩, hr⟩ | ⟨hno, hr⟩
      · exact Or.inl ⟨⟨x, List.mem_cons_of_mem _ hx, hxt⟩, hr⟩
      · refine Or.inr ⟨?_, hr⟩
        rintro ⟨x, hx, hxt⟩
        rcases List.mem_cons.1 hx with rfl | hx
        · exact hnt ((triggering_congr E reg ue p b hp x).2 hxt)
        · exact hno ⟨x, hx, hxt⟩

theorem eq_of_atMostOne (q : PdiIE → Bool) (ies : List PdiIE) (h : AtMostOne q ies)
    (x y : PdiIE) (hx : x ∈ ies) (hy : y ∈ ies) (hqx : q x = true) (hqy : q y = true) :
    x = y := by
  have hx2 : x ∈ ies.filter q := List.mem_filter.2 ⟨hx, hqx⟩
  have hy2 : y ∈ ies.filter q := List.mem_filter.2 ⟨hy, hqy⟩
  unfold AtMostOne at h
  cases hl : ies.filter q with
  | nil => rw [hl] at hx2; simp at hx2
  | cons a t =>
    rw [hl] at h hx2 hy2
    cases t with
    | nil =>
      simp only [List.mem_singleton] at hx2 hy2
      rw [hx2, hy2]
    | cons b t2 => simp at h

/-- Two steps of the first loop on elements of different kinds can be exchanged. -/
theorem extractStepVal_comm (E : Env) (x y : PdiIE) (z : Pdr × List Nat)
    (h1 : ¬ (x.isUEIP = true ∧ y.isUEIP = true))
    (h2 : ¬ (x.isSrcIface = true ∧ y.isSrcIface = true))
    (h3 : ¬ (x.isFTEID = true ∧ y.isFTEID = true)) :
    extractStepVal E (extractStepVal E z x) y = extractStepVal E (extractStepVal E z y) x := by
  cases x with
  | ueIPAddress a =>
    cases y with
    | ueIPAddress b => simp [PdiIE.isUEIP] at h1
    | sourceInterface b =>
      cases a <;> cases b <;> (simp only [extractStepVal]; repeat' split) <;> rfl
    | fteid b =>
      cases a <;> cases b <;> (simp only [extractStepVal]; repeat' split) <;> rfl
    | qfi => rfl
    | applicationID b => rfl
    | sdfFilter b => rfl
    | other t => rfl
  | sourceInterface a =>
    cases y with
    | ueIPAddress b =>
      cases a <;> cases b <;> (simp only [extractStepVal]; repeat' split) <;> rfl
    | sourceInterface b => simp [PdiIE.isSrcIface] at h2
    | fteid b =>
      cases a <;> cases b <;> (simp only [extractStepVal]; repeat' split) <;> rfl
    | qfi => rfl
    | applicationID b => rfl
    | sdfFilter b => rfl
    | other t => rfl
  | fteid a =>
    cases y with
    | ueIPAddress b =>
      cases a <;> cases b <;> (simp only [extractStepVal]; repeat' split) <;> rfl
    | sourceInterface b =>
      cases a <;> cases b <;> (simp only [extractStepVal]; repeat' split) <;> rfl
    | fteid b => simp [PdiIE.isFTEID] at h3
    | qfi => rfl
    | applicationID b => rfl
    | sdfFilter b => rfl
    | other t => rfl
  | qfi => cases y <;> rfl
  | applicationID a => cases y <;> rfl
  | sdfFilter a => cases y <;> rfl
  | other t => cases y <;> rfl

/-- The first loop gives the same rule and UE address on two orders of a PDI without
duplicates. -/
theorem extractLoopVal_perm (E : Env) (ies1 ies2 : List PdiIE) (hperm : ies1.Perm ies2)
    (hnd : NoDuplicates ies1) (st : Pdr × List Nat) :
    extractLoopVal E ies1 st = extractLoopVal E ies2 st := by
  unfold extractLoopVal
  apply List.Perm.foldl_eq' hperm
  intro x hx y hy z
  by_cases hxy : x = y
  · rw [hxy]
  · apply extractStepVal_comm
    · rintro ⟨a, b⟩
      exact hxy (eq_of_atMostOne _ ies1 hnd.1 x y hx hy a b)
    · rintro ⟨a, b⟩
      exact hxy (eq_of_atMostOne _ ies1 hnd.2.1 x y hx hy a b)
    · rintro ⟨a, b⟩
      exact hxy (eq_of_atMostOne _ ies1 hnd.2.2.1 x y hx hy a b)

/-- Two orders of a PDI with at most one filter element have the same filter elements, in
the same order. -/
theorem filterElems_perm (ies1 ies2 : List PdiIE) (hperm : ies1.Perm ies2)
    (h : AtMostOne PdiIE.isFilterElem ies1) :
    ies1.filter PdiIE.isFilterElem = ies2.filter PdiIE.isFilterElem := by
  have hp : (ies1.filter PdiIE.isFilterElem).Perm (ies2.filter PdiIE.isFilterElem) :=
    hperm.filter _
  unfold AtMostOne at h
  cases h1 : ies1.filter PdiIE.isFilterElem with
  | nil =>
    rw [h1] at hp
    exact (List.perm_nil.1 hp.symm).symm
  | cons a t =>
    rw [h1] at h hp
    cases t with
    | nil => exact (List.perm_singleton.1 hp.symm).symm
    | cons b t2 => simp at h

theorem extractStepVal_filterElem (E : Env) (e : PdiIE) (h : (!e.isFilterElem) = false)
    (st : Pdr × List Nat) : extractStepVal E st e = st := by
  cases e <;> simp [PdiIE.isFilterElem] at h
  · rfl
  · rfl

/-- The first loop does not look at filter elements. -/
theorem extractLoopVal_drop_filterElems (E : Env) (ies : List PdiIE) (st : Pdr × List Nat) :
    extractLoopVal E ies st = extractLoopVal E (ies.filter fun e => !e.isFilterElem) st :=
  (extractLoopVal_filter E (fun e => !e.isFilterElem)
    (fun e he st2 => extractStepVal_filterElem E e he st2) ies st).symm

theorem extractLoopVal_remove_filterElem (E : Env) (A B : List PdiIE) (x : PdiIE)
    (hx : x.isFilterElem = true) (st : Pdr × List Nat) :
    extractLoopVal E (A ++ x :: B) st = extractLoopVal E (A ++ B) st := by
  rw [extractLoopVal_drop_filterElems E (A ++ x :: B), extractLoopVal_drop_filterElems E (A ++ B)]
  simp [List.filter_append, List.filter_cons, hx]

theorem appliesFilter_congr (E : Env) (reg : Registry) (ue : List Nat) (x : PdiIE)
    (p q : Pdr) (h : p.srcIface = q.srcIface) (f : IpFilterRule) :
    AppliesFilter E reg ue x p f → AppliesFilter E reg ue x q f := by
  rintro (hs | ⟨appID, pre, d, post, hx, hreg, hpre, hd, hm⟩)
  · exact Or.inl hs
  · refine Or.inr ⟨appID, pre, d, post, hx, hreg, ?_, hd, (dirMatches_congr E p q h f).1 hm⟩
    intro y hy
    obtain ⟨g, hg, hng⟩ := hpre y hy
    exact ⟨g, hg, fun hq => hng ((dirMatches_congr E p q h g).2 hq)⟩

theorem appliesFilter_isFilterElem (E : Env) (reg : Registry) (ue : List Nat) (x : PdiIE)
    (p : Pdr) (f : IpFilterRule) (h : AppliesFilter E reg ue x p f) :
    x.isFilterElem = true := by
  rcases h with ⟨d, rfl, _⟩ | ⟨appID, _, _, _, rfl, _⟩ <;> rfl

theorem filterLoop_single_applies (E : Env) (reg : Registry) (ue : List Nat) (x : PdiIE)
    (p : Pdr) (f : IpFilterRule) (h : AppliesFilter E reg ue x p f) :
    filterLoop E reg ue [x] p = .returned (applyElem E x f p) none := by
  rcases h with ⟨d, rfl, hd, hparse⟩ | ⟨appID, pre, d, post, rfl, hreg, hpre, hparse, hm⟩
  · exact filterLoop_single_sdf E reg ue d f p hd hparse
  · exact filterLoop_single_app E reg ue appID pre d post p f hreg hpre hparse hm

theorem applyElem_srcIface (E : Env) (x : PdiIE) (f : IpFilterRule) (p : Pdr) :
    (applyElem E x f p).srcIface = p.srcIface := by
  cases x with
  | sdfFilter dec => exact applySDF_kept E f p _ srcIface_mem_kept
  | ueIPAddress dec => exact applyPFD_kept E f p _ srcIface_mem_kept
  | sourceInterface dec => exact applyPFD_kept E f p _ srcIface_mem_kept
  | fteid dec => exact applyPFD_kept E f p _ srcIface_mem_kept
  | qfi => exact applyPFD_kept E f p _ srcIface_mem_kept
  | applicationID dec => exact applyPFD_kept E f p _ srcIface_mem_kept
  | other t => exact applyPFD_kept E f p _ srcIface_mem_kept

theorem applyElem_proto (E : Env) (x : PdiIE) (f : IpFilterRule) (p : Pdr) :
    (f.proto ≠ E.reservedProto →
      (applyElem E x f p).proto = f.proto ∧
        (applyElem E x f p).protoMask = E.reservedProto) ∧
    (f.proto = E.reservedProto →
      (applyElem E x f p).proto = p.proto ∧ (applyElem E x f p).protoMask = p.protoMask) := by
  cases x with
  | sdfFilter dec => exact applySDF_proto E f p
  | ueIPAddress dec => exact applyPFD_proto E f p
  | sourceInterface dec => exact applyPFD_proto E f p
  | fteid dec => exact applyPFD_proto E f p
  | qfi => exact applyPFD_proto E f p
  | applicationID dec => exact applyPFD_proto E f p
  | other t => exact applyPFD_proto E f p

/-- On an access-side or core-side rule, the addresses that an applied filter writes do
not depend on the addresses the rule had. -/
theorem applyElem_addresses (E : Env) (x : PdiIE) (f : IpFilterRule) (p q : Pdr)
    (h : p.srcIface = q.srcIface) (hi : q.srcIface = E.access ∨ q.srcIface = E.core) :
    (applyElem E x f p).srcIP = (applyElem E x f q).srcIP ∧
      (applyElem E x f p).srcIPMask = (applyElem E x f q).srcIPMask ∧
      (applyElem E x f p).dstIP = (applyElem E x f q).dstIP ∧
      (applyElem E x f p).dstIPMask = (applyElem E x f q).dstIPMask := by
  have hpfd : (applyPFD E f p).srcIP = (applyPFD E f q).srcIP ∧
      (applyPFD E f p).srcIPMask = (applyPFD E f q).srcIPMask ∧
      (applyPFD E f p).dstIP = (applyPFD E f q).dstIP ∧
      (applyPFD E f p).dstIPMask = (applyPFD E f q).dstIPMask := by
    simp [applyPFD]
  cases x with
  | sdfFilter dec =>
    simp only [applyElem, applySDF]
    by_cases hc : q.srcIface = E.core
    · split <;> simp [h, hc]
    · have ha : q.srcIface = E.access := hi.resolve_right hc
      have hc2 : ¬ E.access = E.core := by rw [← ha]; exact hc
      split <;> simp [h, ha, hc2]
  | ueIPAddress dec => exact hpfd
  | sourceInterface dec => exact hpfd
  | fteid dec => exact hpfd
  | qfi => exact hpfd
  | applicationID dec => exact hpfd
  | other t => exact hpfd

/-! ## Error handling of `parsePDR` and `parsePDI` on a rejected flow description -/

/-- C1, as stated, fails: on a PDR whose identifier, precedence and PDI decode and whose
SDF filter description the parser rejects, `parsePDI` returns `errBadFilterDesc` but
`parsePDR` returns nil, with the rule finalized. -/
theorem parsePDR_badFilter_counterexample :
    parsePDI demoEnv [.sourceInterface (some 0), .sdfFilter (some ⟨"bad"⟩)] demoRegistry
        Pdr.zero
      = .returned { Pdr.zero with srcIface := 1, srcIfaceMask := 0xFF }
          (some .errBadFilterDesc) ∧
    parsePDR demoEnv
        ⟨some 9, some 100, some [.sourceInterface (some 0), .sdfFilter (some ⟨"bad"⟩)],
          none, some 5⟩
        7 demoRegistry Pdr.zero
      = .returned
          { Pdr.zero with
              srcIface := 1, srcIfaceMask := 0xFF, precedence := 100, pdrID := 9,
              fseID := 7, farID := 5 }
          none := by
  constructor <;> decide

/-- C1, amended: when the rule identifier, precedence and PDI of the PDR element decode
and `parsePDI` fails with `errBadFilterDesc`, the guard of line 241 lets that error
through: `parsePDR` goes on to read the FAR ID and returns nil.  The rule it leaves is
the one `parsePDI` left, finalized when the FAR ID decodes. -/
theorem parsePDR_badFilter_returns_nil (E : Env) (ie1 : PdrIE) (seid : Nat) (reg : Registry)
    (p r : Pdr) (pdrID precedence : Nat) (pdi : List PdiIE)
    (hid : ie1.PDRID = some pdrID) (hprec : ie1.Precedence = some precedence)
    (hpdi : ie1.PDI = some pdi)
    (hbad : parsePDI E pdi reg p = .returned r (some .errBadFilterDesc)) :
    parsePDR E ie1 seid reg p =
      .returned
        (match ie1.FARID with
          | none => r
          | some farID =>
            { r with
                precedence := precedence, pdrID := pdrID, fseID := seid % 2 ^ 32,
                ctrID := 0, farID := farID,
                needDecap := if ie1.OuterHeaderRemovalDescription = some 0 then 1 else 0 })
        none := by
  unfold parsePDR
  rw [hid, hprec, hpdi]
  simp only [hbad]
  cases ie1.FARID <;> simp

/-- Witness of C1 amended: the PDR element of the counterexample. -/
theorem parsePDR_badFilter_returns_nil_witness :
    parsePDR demoEnv
        ⟨some 9, some 100, some [.sourceInterface (some 0), .sdfFilter (some ⟨"bad"⟩)],
          none, some 5⟩
        7 demoRegistry Pdr.zero
      = .returned
          { Pdr.zero with
              srcIface := 1, srcIfaceMask := 0xFF, precedence := 100, pdrID := 9,
              fseID := 7, farID := 5 }
          none :=
  parsePDR_badFilter_returns_nil demoEnv
    ⟨some 9, some 100, some [.sourceInterface (some 0), .sdfFilter (some ⟨"bad"⟩)],
      none, some 5⟩
    7 demoRegistry Pdr.zero { Pdr.zero with srcIface := 1, srcIfaceMask := 0xFF } 9 100
    [.sourceInterface (some 0), .sdfFilter (some ⟨"bad"⟩)] rfl rfl rfl (by decide)

/-- C2, as stated, fails: `parsePDI` fails with `errBadFilterDesc` on a PDI with an
access-side source interface, a UE address and a rejected SDF filter description, and
the rule it leaves differs from the zero rule it started from in the interface and in the
source address. -/
theorem parsePDI_badFilter_counterexample :
    parsePDI demoEnv
        [.sourceInterface (some 0), .ueIPAddress (some ⟨[10, 1, 2, 3]⟩),
          .sdfFilter (some ⟨"bad"⟩)]
        demoRegistry Pdr.zero
      = .returned
          { Pdr.zero with
              srcIface := 1, srcIfaceMask := 0xFF, srcIP := 167838211,
              srcIPMask := 0xffffffff }
          (some .errBadFilterDesc) ∧
    ({ Pdr.zero with
        srcIface := 1, srcIfaceMask := 0xFF, srcIP := 167838211,
        srcIPMask := 0xffffffff } : Pdr) ≠ Pdr.zero := by
  constructor <;> decide

/-- C2, amended: whenever `parsePDI` returns an error, the error is `errBadFilterDesc`
and the rule is left as it was when the failing element was reached: the first loop and
the UE-address block have run on the whole PDI, the second loop has processed the
elements before the failing one without error, and the failing element itself has
written nothing.  The fields other than the addresses and the protocol are as the first
loop left them. -/
theorem parsePDI_badFilter_keeps_partial (E : Env) (ies : List PdiIE) (reg : Registry)
    (p r : Pdr) (e : GoError) (h : parsePDI E ies reg p = .returned r (some e)) :
    e = .errBadFilterDesc ∧
    ∃ st, extractLoop E ies (p, []) = .done st ∧
      (∃ pre x post, ies = pre ++ x :: post ∧
        filterLoop E reg st.2 pre (ueFallback E st) = .returned r none ∧
        filterLoop E reg st.2 [x] r = .returned r (some .errBadFilterDesc)) ∧
      (∀ f ∈ Pdr.keptByFilters, f r = f st.1) := by
  obtain ⟨hn, h⟩ := parsePDI_returned E ies reg p r _ h
  obtain ⟨he, hsplit⟩ := filterLoop_error_split E reg _ ies _ r e h
  refine ⟨he, extractLoopVal E ies (p, []), extractLoop_of_noPanic E ies (p, []) hn, hsplit,
    ?_⟩
  intro f hf
  rw [filterLoop_kept E reg _ ies _ r _ h f hf]
  exact ueFallback_kept E _ f hf

/-- Witness of C2 amended: the PDI of the counterexample. -/
theorem parsePDI_badFilter_keeps_partial_witness :
    (GoError.errBadFilterDesc = .errBadFilterDesc) ∧
    ∃ st,
      extractLoop demoEnv
        [.sourceInterface (some 0), .ueIPAddress (some ⟨[10, 1, 2, 3]⟩),
          .sdfFilter (some ⟨"bad"⟩)] (Pdr.zero, []) = .done st ∧
      (∃ pre x post,
        [PdiIE.sourceInterface (some 0), .ueIPAddress (some ⟨[10, 1, 2, 3]⟩),
            .sdfFilter (some ⟨"bad"⟩)] = pre ++ x :: post ∧
        filterLoop demoEnv demoRegistry st.2 pre (ueFallback demoEnv st)
          = .returned
              { Pdr.zero with
                  srcIface := 1, srcIfaceMask := 0xFF, srcIP := 167838211,
                  srcIPMask := 0xffffffff } none ∧
        filterLoop demoEnv demoRegistry st.2 [x]
            { Pdr.zero with
                srcIface := 1, srcIfaceMask := 0xFF, srcIP := 167838211,
                srcIPMask := 0xffffffff }
          = .returned
              { Pdr.zero with
                  srcIface := 1, srcIfaceMask := 0xFF, srcIP := 167838211,
                  srcIPMask := 0xffffffff } (some .errBadFilterDesc)) ∧
      (∀ f ∈ Pdr.keptByFilters,
        f { Pdr.zero with
              srcIface := 1, srcIfaceMask := 0xFF, srcIP := 167838211,
              srcIPMask := 0xffffffff }
          = f st.1) :=
  parsePDI_badFilter_keeps_partial demoEnv
    [.sourceInterface (some 0), .ueIPAddress (some ⟨[10, 1, 2, 3]⟩),
      .sdfFilter (some ⟨"bad"⟩)]
    demoRegistry Pdr.zero
    { Pdr.zero with
        srcIface := 1, srcIfaceMask := 0xFF, srcIP := 167838211, srcIPMask := 0xffffffff }
    .errBadFilterDesc (by decide)

/-! ## What `parsePDI` writes for an SDF filter, an application identifier, a UE address
and an F-TEID -/

/-- C3: on a PDI on which the first loop is done, leaving `st`, whose decodable
source-interface elements all carry `v`, with no application identifier and exactly one
SDF filter, whose non-empty description the parser accepts as `f` (of any direction),
`parsePDI` returns nil and, when `v` is core-side, the source and destination address and
mask of the rule are those of the source and destination network of `f`; when `v` is
access-side they are swapped. -/
theorem parsePDI_sdf_orientation (E : Env) (hne : E.access ≠ E.core) (ies : List PdiIE)
    (reg : Registry) (p : Pdr) (v : Nat) (d : String) (f : IpFilterRule)
    (st : Pdr × List Nat) (hext : extractLoop E ies (p, []) = .done st)
    (hall : ∀ w, PdiIE.sourceInterface (some w) ∈ ies → w = v)
    (hmem : PdiIE.sourceInterface (some v) ∈ ies)
    (hflt : ies.filter PdiIE.isFilterElem = [.sdfFilter (some ⟨d⟩)])
    (hd : d ≠ "")
    (hparse : E.parseFlowDesc d (E.ipString st.2) = some f) :
    ∃ r, parsePDI E ies reg p = .returned r none ∧
      (v = SrcInterfaceCore →
        r.srcIP = E.ip2int f.src.IPNet.IP ∧ r.srcIPMask = E.ipMask2int f.src.IPNet.Mask ∧
        r.dstIP = E.ip2int f.dst.IPNet.IP ∧ r.dstIPMask = E.ipMask2int f.dst.IPNet.Mask) ∧
      (v = SrcInterfaceAccess →
        r.srcIP = E.ip2int f.dst.IPNet.IP ∧ r.srcIPMask = E.ipMask2int f.dst.IPNet.Mask ∧
        r.dstIP = E.ip2int f.src.IPNet.IP ∧ r.dstIPMask = E.ipMask2int f.src.IPNet.Mask) := by
  obtain ⟨-, hst⟩ := extractLoop_done E ies (p, []) st hext
  refine ⟨applySDF E f (ueFallback E st), ?_, ?_, ?_⟩
  · rw [parsePDI_of_done E ies reg p st hext, filterLoop_filterElems, hflt]
    exact filterLoop_single_sdf E reg _ d f _ hd hparse
  · subst hst
    intro hv
    have hi := srcIface_after_extract E v (Or.inr hv) ies hall hmem (p, [])
    have hc : ¬ v = SrcInterfaceAccess := by rw [hv]; decide
    simp only [hc, if_false] at hi
    simp only [applySDF]
    split <;> simp [hi]
  · subst hst
    intro hv
    have hi := srcIface_after_extract E v (Or.inl hv) ies hall hmem (p, [])
    simp only [hv, if_true] at hi
    simp only [applySDF]
    split <;> simp [hi, hne]

/-- Witness of C3: the filter of the spec's example (source 10.0.0.0/24, destination
20.0.0.0/24, direction out) on an access-side rule is swapped. -/
theorem parsePDI_sdf_orientation_witness :
    ∃ r, parsePDI demoEnv [.sourceInterface (some 0), .sdfFilter (some ⟨"tcp-out"⟩)]
        demoRegistry Pdr.zero = .returned r none ∧
      ((0 : Nat) = SrcInterfaceCore →
        r.srcIP = 167772160 ∧ r.srcIPMask = 4294967040 ∧
        r.dstIP = 335544320 ∧ r.dstIPMask = 4294967040) ∧
      ((0 : Nat) = SrcInterfaceAccess →
        r.srcIP = 335544320 ∧ r.srcIPMask = 4294967040 ∧
        r.dstIP = 167772160 ∧ r.dstIPMask = 4294967040) :=
  parsePDI_sdf_orientation demoEnv (by decide)
    [.sourceInterface (some 0), .sdfFilter (some ⟨"tcp-out"⟩)] demoRegistry Pdr.zero 0
    "tcp-out"
    ⟨"out", 6, ⟨⟨[10, 0, 0, 0], [255, 255, 255, 0]⟩⟩, ⟨⟨[20, 0, 0, 0], [255, 255, 255, 0]⟩⟩⟩
    ({ Pdr.zero with srcIface := 1, srcIfaceMask := 0xFF }, []) (by decide)
    (by simp) (by simp) (by decide) (by decide) (by decide)

/-- C4: on a PDI on which the first loop is done, leaving `st`, whose decodable
source-interface elements all carry `v`, access-side or core-side, with no SDF filter
and one application identifier, found in the registry
under a record with the same identifier: when the flow descriptions `pre` all parse with
a direction other than the one asked for (`out` for access-side, `in` for core-side) and
the next description `d` parses as `f` with that direction, `parsePDI` returns nil with
the addresses of `f`, source to source and destination to destination, and the
descriptions `post` after `d` do not matter: the outcome is that of the registry whose
record ends at `d`. -/
theorem parsePDI_app_first_match (E : Env) (hne : E.access ≠ E.core) (ies : List PdiIE)
    (reg : Registry) (p : Pdr) (v : Nat) (appID : String) (pre : List String) (d : String)
    (post : List String) (f : IpFilterRule)
    (st : Pdr × List Nat) (hext : extractLoop E ies (p, []) = .done st)
    (hv : v = SrcInterfaceAccess ∨ v = SrcInterfaceCore)
    (hall : ∀ w, PdiIE.sourceInterface (some w) ∈ ies → w = v)
    (hmem : PdiIE.sourceInterface (some v) ∈ ies)
    (hflt : ies.filter PdiIE.isFilterElem = [.applicationID (some appID)])
    (hreg : reg appID = some ⟨appID, pre ++ d :: post⟩)
    (hpre : ∀ x ∈ pre, ∃ g,
      E.parseFlowDesc x (E.ipString st.2) = some g ∧
        g.direction ≠ if v = SrcInterfaceAccess then "out" else "in")
    (hparse : E.parseFlowDesc d (E.ipString st.2) = some f)
    (hdir : f.direction = if v = SrcInterfaceAccess then "out" else "in") :
    ∃ r, parsePDI E ies reg p = .returned r none ∧
      r.srcIP = E.ip2int f.src.IPNet.IP ∧ r.srcIPMask = E.ipMask2int f.src.IPNet.Mask ∧
      r.dstIP = E.ip2int f.dst.IPNet.IP ∧ r.dstIPMask = E.ipMask2int f.dst.IPNet.Mask ∧
      parsePDI E ies (fun k => if k = appID then some ⟨appID, pre ++ [d]⟩ else reg k) p
        = .returned r none := by
  obtain ⟨-, hst⟩ := extractLoop_done E ies (p, []) st hext
  have hi : (ueFallback E st).srcIface
      = if v = SrcInterfaceAccess then E.access else E.core := by
    rw [hst]
    exact srcIface_after_extract E v hv ies hall hmem (p, [])
  have hw := dirMatches_wanted E hne v hv _ hi
  have hpre2 : ∀ x ∈ pre, ∃ g,
      E.parseFlowDesc x (E.ipString st.2) = some g ∧
        ¬ dirMatches E (ueFallback E st) g := by
    intro x hx
    obtain ⟨g, hg, hgd⟩ := hpre x hx
    exact ⟨g, hg, fun hm => hgd ((hw g).1 hm)⟩
  have hm : dirMatches E (ueFallback E st) f := (hw f).2 hdir
  refine ⟨applyPFD E f (ueFallback E st), ?_, ?_, ?_, ?_, ?_, ?_⟩
  · rw [parsePDI_of_done E ies reg p st hext, filterLoop_filterElems, hflt]
    exact filterLoop_single_app E reg _ appID pre d post _ f hreg hpre2 hparse hm
  · simp [applyPFD]
  · simp [applyPFD]
  · simp [applyPFD]
  · simp [applyPFD]
  · rw [parsePDI_of_done E ies _ p st hext, filterLoop_filterElems, hflt]
    exact filterLoop_single_app E _ _ appID pre d [] _ f (by simp) hpre2 hparse hm

/-- Witness of C4: the record `app1` has descriptions of directions in, out and then one
the parser rejects; on an access-side rule the second is adopted. -/
theorem parsePDI_app_first_match_witness :
    ∃ r, parsePDI demoEnv [.applicationID (some "app1"), .sourceInterface (some 0)]
        demoRegistry Pdr.zero = .returned r none ∧
      r.srcIP = 167772160 ∧ r.srcIPMask = 4294967040 ∧
      r.dstIP = 335544320 ∧ r.dstIPMask = 4294967040 ∧
      parsePDI demoEnv [.applicationID (some "app1"), .sourceInterface (some 0)]
        (fun k => if k = "app1" then some ⟨"app1", ["tcp-in"] ++ ["tcp-out"]⟩
          else demoRegistry k) Pdr.zero = .returned r none :=
  parsePDI_app_first_match demoEnv (by decide)
    [.applicationID (some "app1"), .sourceInterface (some 0)] demoRegistry Pdr.zero 0
    "app1" ["tcp-in"] "tcp-out" ["bad"]
    ⟨"out", 6, ⟨⟨[10, 0, 0, 0], [255, 255, 255, 0]⟩⟩, ⟨⟨[20, 0, 0, 0], [255, 255, 255, 0]⟩⟩⟩
    ({ Pdr.zero with srcIface := 1, srcIfaceMask := 0xFF }, []) (by decide)
    (by decide) (by simp) (by simp) (by decide) (by decide)
    (by
      intro x hx
      rw [List.mem_singleton] at hx
      subst hx
      exact ⟨⟨"in", 6, ⟨⟨[30, 0, 0, 0], [255, 255, 0, 0]⟩⟩, ⟨⟨[40, 0, 0, 0], [255, 255, 0, 0]⟩⟩⟩,
        by decide, by decide⟩)
    (by decide) (by decide)

/-- C5: starting from the zero rule, on a PDI on which the first loop is done, whose
decodable UE IP address elements all carry the 4-byte address `a`, whose decodable
source-interface elements all carry `v`, and which has no SDF filter and no application
identifier, `parsePDI` returns nil; when `v` is core-side the destination address is `a`
with mask `0xFFFFFFFF` and the source mask is zero, and when `v` is access-side the
source address is `a` with mask `0xFFFFFFFF` and the destination mask is zero.  The order
of the elements is free. -/
theorem parsePDI_ueIP_fallback (E : Env) (hne : E.access ≠ E.core) (ies : List PdiIE)
    (reg : Registry) (a : List Nat) (v : Nat)
    (st : Pdr × List Nat) (hext : extractLoop E ies (Pdr.zero, []) = .done st)
    (hlen : a.length = 4)
    (hueAll : ∀ w, PdiIE.ueIPAddress (some w) ∈ ies → w = ⟨a⟩)
    (hueMem : PdiIE.ueIPAddress (some ⟨a⟩) ∈ ies)
    (hall : ∀ w, PdiIE.sourceInterface (some w) ∈ ies → w = v)
    (hmem : PdiIE.sourceInterface (some v) ∈ ies)
    (hflt : ies.filter PdiIE.isFilterElem = []) :
    ∃ r, parsePDI E ies reg Pdr.zero = .returned r none ∧
      (v = SrcInterfaceCore →
        r.dstIP = E.ip2int a ∧ r.dstIPMask = 0xFFFFFFFF ∧ r.srcIPMask = 0) ∧
      (v = SrcInterfaceAccess →
        r.srcIP = E.ip2int a ∧ r.srcIPMask = 0xFFFFFFFF ∧ r.dstIPMask = 0) := by
  obtain ⟨-, hst⟩ := extractLoop_done E ies (Pdr.zero, []) st hext
  have hue := extractLoopVal_ueIP4 E a ies hueAll hueMem (Pdr.zero, [])
  have hkept := extractLoopVal_kept E ies (Pdr.zero, [])
  simp only [Pdr.keptByExtract, List.forall_mem_cons] at hkept
  obtain ⟨-, -, -, -, -, hsm, hdm, -⟩ := hkept
  refine ⟨ueFallback E st, ?_, ?_, ?_⟩
  · rw [parsePDI_of_done E ies reg Pdr.zero st hext, filterLoop_filterElems, hflt]
    rfl
  · subst hst
    intro hv
    subst hv
    have hi := (extractLoopVal_srcIface E _ _ (extractStepVal_core E) ies hall hmem
      (Pdr.zero, [])).1
    simp only [ueFallback, hue, hlen, hi, if_true]
    exact ⟨trivial, trivial, hsm⟩
  · subst hst
    intro hv
    subst hv
    have hi := (extractLoopVal_srcIface E _ _ (extractStepVal_access E) ies hall hmem
      (Pdr.zero, [])).1
    simp only [ueFallback, hue, hlen, hi, if_true, hne, if_false]
    exact ⟨trivial, trivial, hdm⟩

/-- Witness of C5: a core-side PDI with the UE address placed before the interface. -/
theorem parsePDI_ueIP_fallback_witness :
    ∃ r, parsePDI demoEnv
        [.ueIPAddress (some ⟨[10, 1, 2, 3]⟩), .qfi, .sourceInterface (some 1)]
        demoRegistry Pdr.zero = .returned r none ∧
      ((1 : Nat) = SrcInterfaceCore →
        r.dstIP = 167838211 ∧ r.dstIPMask = 0xFFFFFFFF ∧ r.srcIPMask = 0) ∧
      ((1 : Nat) = SrcInterfaceAccess →
        r.srcIP = 167838211 ∧ r.srcIPMask = 0xFFFFFFFF ∧ r.dstIPMask = 0) :=
  parsePDI_ueIP_fallback demoEnv (by decide)
    [.ueIPAddress (some ⟨[10, 1, 2, 3]⟩), .qfi, .sourceInterface (some 1)]
    demoRegistry [10, 1, 2, 3] 1
    ({ Pdr.zero with srcIface := 2, srcIfaceMask := 0xFF }, [10, 1, 2, 3]) (by decide)
    (by decide) (by simp) (by simp) (by simp) (by simp) (by decide)

/-- C6: starting from the zero rule, on a PDI made of a decodable source interface and a
decodable F-TEID with TEID `t`, not zero, and an address `a` on which `ip2int` returns,
in either order, `parsePDI` returns nil, the tunnel TEID is `t` and the tunnel
destination is `ip2int a`, both with mask `0xFFFFFFFF`, and the address, port and
protocol values and masks are zero. -/
theorem parsePDI_fteid_only (E : Env) (ies : List PdiIE) (reg : Registry) (v t : Nat)
    (a : List Nat) (ht : t ≠ 0) (ha : E.ip2intPanics a = false)
    (hies : ies = [.sourceInterface (some v), .fteid (some ⟨t, a⟩)] ∨
      ies = [.fteid (some ⟨t, a⟩), .sourceInterface (some v)]) :
    ∃ r, parsePDI E ies reg Pdr.zero = .returned r none ∧
      r.tunnelTEID = t ∧ r.tunnelTEIDMask = 0xFFFFFFFF ∧
      r.tunnelIP4Dst = E.ip2int a ∧ r.tunnelIP4DstMask = 0xFFFFFFFF ∧
      r.srcIP = 0 ∧ r.srcIPMask = 0 ∧ r.dstIP = 0 ∧ r.dstIPMask = 0 ∧
      r.srcPort = 0 ∧ r.srcPortMask = 0 ∧ r.dstPort = 0 ∧ r.dstPortMask = 0 ∧
      r.proto = 0 ∧ r.protoMask = 0 := by
  have hn : NoPanic E ies := by
    intro e he
    rcases hies with rfl | rfl <;>
      (simp only [List.mem_cons, List.mem_singleton, List.not_mem_nil, or_false] at he
       rcases he with rfl | rfl <;> simp [PdiIE.panics, ha])
  refine ⟨ueFallback E (extractLoopVal E ies (Pdr.zero, [])), ?_, ?_⟩
  · rw [parsePDI_of_noPanic E ies reg Pdr.zero hn, filterLoop_filterElems]
    rcases hies with rfl | rfl <;> rfl
  · rcases hies with rfl | rfl
    · simp only [extractLoopVal, List.foldl, extractStepVal, ht, ne_eq, not_false_eq_true,
        if_true]
      split <;> (try split) <;> (try split) <;> simp [ueFallback, Pdr.zero]
    · simp only [extractLoopVal, List.foldl, extractStepVal, ht, ne_eq, not_false_eq_true,
        if_true]
      split <;> (try split) <;> (try split) <;> simp [ueFallback, Pdr.zero]

/-- Witness of C6: an access-side interface after an F-TEID with TEID 77. -/
theorem parsePDI_fteid_only_witness :
    ∃ r, parsePDI demoEnv [.fteid (some ⟨77, [192, 168, 0, 1]⟩), .sourceInterface (some 0)]
        demoRegistry Pdr.zero = .returned r none ∧
      r.tunnelTEID = 77 ∧ r.tunnelTEIDMask = 0xFFFFFFFF ∧
      r.tunnelIP4Dst = demoEnv.ip2int [192, 168, 0, 1] ∧ r.tunnelIP4DstMask = 0xFFFFFFFF ∧
      r.srcIP = 0 ∧ r.srcIPMask = 0 ∧ r.dstIP = 0 ∧ r.dstIPMask = 0 ∧
      r.srcPort = 0 ∧ r.srcPortMask = 0 ∧ r.dstPort = 0 ∧ r.dstPortMask = 0 ∧
      r.proto = 0 ∧ r.protoMask = 0 :=
  parsePDI_fteid_only demoEnv [.fteid (some ⟨77, [192, 168, 0, 1]⟩), .sourceInterface (some 0)]
    demoRegistry 0 77 [192, 168, 0, 1] (by decide) (by decide) (Or.inr rfl)

/-! ## Tunnel masks, absent application identifiers, idempotence, protocol -/

/-- C7: the code breaks the claim.  On a PDI with an F-TEID whose TEID is 77 and which
carries no IPv4 address, started at the zero rule, the TEID mask is written (line 106)
and `ip2int` then panics on the address (line 107), before the tunnel-destination mask is
written (line 108): `parsePDI` ends with a rule whose TEID mask is `0xFFFFFFFF` and whose
tunnel-destination mask is zero. -/
theorem tunnel_masks_split_at_panic :
    parsePDI demoEnv [.fteid (some ⟨77, []⟩)] demoRegistry Pdr.zero
      = .panicked { Pdr.zero with tunnelTEID := 77, tunnelTEIDMask := 0xFFFFFFFF } ∧
    ({ Pdr.zero with tunnelTEID := 77, tunnelTEIDMask := 0xFFFFFFFF } : Pdr).tunnelTEIDMask
      ≠ 0 ∧
    ({ Pdr.zero with tunnelTEID := 77, tunnelTEIDMask := 0xFFFFFFFF } : Pdr).tunnelIP4DstMask
      = 0 := by
  refine ⟨?_, ?_, ?_⟩ <;> decide

/-- Whenever `parsePDI` returns, with or without an error, a rule in which a non-zero TEID
mask comes with a non-zero tunnel-destination mask stays so; started from the zero rule,
a returning `parsePDI` or `parsePDR` leaves the two masks both zero or both `0xFFFFFFFF`;
and F-TEID elements with a zero TEID can be dropped from the PDI without changing what
`parsePDI` does. -/
theorem tunnel_masks_together_on_return (E : Env) (ies : List PdiIE) (reg : Registry)
    (p : Pdr) (ie1 : PdrIE) (seid : Nat) :
    (∀ r e, parsePDI E ies reg p = .returned r e →
      (p.tunnelTEIDMask ≠ 0 → p.tunnelIP4DstMask ≠ 0) →
      r.tunnelTEIDMask ≠ 0 → r.tunnelIP4DstMask ≠ 0) ∧
    (∀ r e, parsePDI E ies reg Pdr.zero = .returned r e → r.tunnelMasksTogether) ∧
    (∀ r e, parsePDR E ie1 seid reg Pdr.zero = .returned r e → r.tunnelMasksTogether) ∧
    parsePDI E (ies.filter fun x => !x.isZeroTEID) reg p = parsePDI E ies reg p := by
  have hzero : ∀ (l : List PdiIE) r e, parsePDI E l reg Pdr.zero = .returned r e →
      r.tunnelMasksTogether := by
    intro l r e h
    obtain ⟨h1, h2⟩ := parsePDI_tunnel_masks E l reg Pdr.zero r e h
    have := extractLoopVal_tunnel_together E l (Pdr.zero, []) (Or.inl ⟨rfl, rfl⟩)
    unfold Pdr.tunnelMasksTogether at this ⊢
    rw [h1, h2]
    exact this
  refine ⟨?_, hzero ies, ?_, ?_⟩
  · intro r e h hp
    obtain ⟨h1, h2⟩ := parsePDI_tunnel_masks E ies reg p r e h
    rw [h1, h2]
    exact extractLoopVal_tunnel_imp E ies (p, []) hp
  · intro r e h
    rcases parsePDR_tunnel_masks E ie1 seid reg Pdr.zero r e h with ⟨h1, h2⟩ |
      ⟨pdi, r1, e1, hpdi, h1, h2⟩
    · exact Or.inl ⟨h1, h2⟩
    · have := hzero pdi r1 e1 hpdi
      unfold Pdr.tunnelMasksTogether at this ⊢
      rw [h1, h2]
      exact this
  · exact parsePDI_filter E reg _ (fun e he => extractStep_zeroTEID E e he)
      (fun e he => filterLoop_zeroTEID E reg e he) ies p

/-- C8: an application identifier that the registry does not hold contributes nothing and
does not abort: `parsePDI` has the same outcome, rule and error, as on the PDI without
such elements, and so has `parsePDR` on the PDR element. -/
theorem absent_appID_contributes_nothing (E : Env) (ies : List PdiIE) (reg : Registry)
    (p : Pdr) (ie1 : PdrIE) (seid : Nat) :
    parsePDI E (ies.filter fun x => !x.isAbsentApp reg) reg p = parsePDI E ies reg p ∧
    parsePDR E (ie1.filterPDI fun x => !x.isAbsentApp reg) seid reg p
      = parsePDR E ie1 seid reg p := by
  have h : ∀ l q, parsePDI E (l.filter fun x => !x.isAbsentApp reg) reg q
      = parsePDI E l reg q :=
    fun l q => parsePDI_filter E reg _ (fun e he => extractStep_absentApp E reg e he)
      (fun e he => filterLoop_absentApp E reg e he) l q
  exact ⟨h ies p, parsePDR_filterPDI E reg _ h ie1 seid p⟩

/-- C9: `parsePDI` is idempotent.  When it returns the rule `r` with error `e`, running it
again on `r` with the same elements and registry returns `r` with `e`; and any return of
the first run is this one. -/
theorem parsePDI_idempotent (E : Env) (ies : List PdiIE) (reg : Registry) (p r : Pdr)
    (e : Option GoError) (h : parsePDI E ies reg p = .returned r e) :
    parsePDI E ies reg r = .returned r e ∧
      ∀ r2 e2, parsePDI E ies reg p = .returned r2 e2 → r2 = r ∧ e2 = e := by
  refine ⟨parsePDI_rerun E ies reg p r e h, ?_⟩
  intro r2 e2 h2
  rw [h] at h2
  simp only [Outcome.returned.injEq] at h2
  exact ⟨h2.1.symm, h2.2.symm⟩

/-- Witness of C9: a core-side PDI with a UE address, an SDF filter and an application
identifier. -/
theorem parsePDI_idempotent_witness :
    parsePDI demoEnv
        [.sdfFilter (some ⟨"any-out"⟩), .ueIPAddress (some ⟨[10, 1, 2, 3]⟩),
          .applicationID (some "app1"), .sourceInterface (some 1)]
        demoRegistry
        { Pdr.zero with
            srcIface := 2, srcIfaceMask := 0xFF, srcIP := 503316480, srcIPMask := 4294901760,
            dstIP := 671088640, dstIPMask := 4294901760, proto := 6, protoMask := 0xFF }
      = .returned
          { Pdr.zero with
              srcIface := 2, srcIfaceMask := 0xFF, srcIP := 503316480,
              srcIPMask := 4294901760, dstIP := 671088640, dstIPMask := 4294901760,
              proto := 6, protoMask := 0xFF }
          none :=
  (parsePDI_idempotent demoEnv
    [.sdfFilter (some ⟨"any-out"⟩), .ueIPAddress (some ⟨[10, 1, 2, 3]⟩),
      .applicationID (some "app1"), .sourceInterface (some 1)]
    demoRegistry Pdr.zero
    { Pdr.zero with
        srcIface := 2, srcIfaceMask := 0xFF, srcIP := 503316480, srcIPMask := 4294901760,
        dstIP := 671088640, dstIPMask := 4294901760, proto := 6, protoMask := 0xFF }
    none (by decide)).1

/-- C10: take the constant `reservedProto`, which is also the protocol mask that the
code writes, to be `0xFF`, and let the first loop be done, leaving `st`.  When the second
loop, having processed the elements `pre` without error, applies the parsed filter `f` at
the element `x` (an SDF filter in either orientation, or the first direction-consistent
flow description of an application identifier), the rule `b2` it has after `x`, with
which `parsePDI` goes on, has protocol `f.proto` and protocol mask `0xFF` if `f.proto` is
not `reservedProto`, and the protocol value and mask it had before `x` otherwise. -/
theorem parsePDI_filter_proto (E : Env) (hres : E.reservedProto = 0xFF)
    (pre : List PdiIE) (x : PdiIE) (post : List PdiIE) (reg : Registry) (p b1 : Pdr)
    (f : IpFilterRule)
    (st : Pdr × List Nat) (hext : extractLoop E (pre ++ x :: post) (p, []) = .done st)
    (hpre : filterLoop E reg st.2 pre (ueFallback E st) = .returned b1 none)
    (happ : AppliesFilter E reg st.2 x b1 f) :
    ∃ b2,
      filterLoop E reg st.2 (pre ++ [x]) (ueFallback E st) = .returned b2 none ∧
      parsePDI E (pre ++ x :: post) reg p = filterLoop E reg st.2 post b2 ∧
      (f.proto ≠ E.reservedProto → b2.proto = f.proto ∧ b2.protoMask = 0xFF) ∧
      (f.proto = E.reservedProto → b2.proto = b1.proto ∧ b2.protoMask = b1.protoMask) := by
  have hstep : ∀ b2, filterLoop E reg st.2 [x] b1 = .returned b2 none →
      filterLoop E reg st.2 (pre ++ [x]) (ueFallback E st) = .returned b2 none ∧
      parsePDI E (pre ++ x :: post) reg p = filterLoop E reg st.2 post b2 := by
    intro b2 hx
    constructor
    · rw [filterLoop_append, hpre]
      exact hx
    · rw [parsePDI_of_done E (pre ++ x :: post) reg p st hext, filterLoop_append, hpre]
      simp only [Outcome.andThen]
      rw [filterLoop_cons_eq, hx]
      rfl
  rcases happ with ⟨d, rfl, hd, hparse⟩ | ⟨appID, fpre, d, fpost, rfl, hreg, hfpre, hparse, hm⟩
  · obtain ⟨h1, h2⟩ := hstep _ (filterLoop_single_sdf E reg _ d f b1 hd hparse)
    refine ⟨applySDF E f b1, h1, h2, ?_, ?_⟩
    · intro h
      have := (applySDF_proto E f b1).1 h
      rw [hres] at this
      exact this
    · exact (applySDF_proto E f b1).2
  · obtain ⟨h1, h2⟩ :=
      hstep _ (filterLoop_single_app E reg _ appID fpre d fpost b1 f hreg hfpre hparse hm)
    refine ⟨applyPFD E f b1, h1, h2, ?_, ?_⟩
    · intro h
      have := (applyPFD_proto E f b1).1 h
      rw [hres] at this
      exact this
    · exact (applyPFD_proto E f b1).2

/-- Witness of C10: the TCP filter of the record `app1` on an access-side rule. -/
theorem parsePDI_filter_proto_witness :
    ∃ b2,
      filterLoop demoEnv demoRegistry
        (({ Pdr.zero with srcIface := 1, srcIfaceMask := 0xFF }, []) : Pdr × List Nat).2
        ([.sourceInterface (some 0)] ++ [.applicationID (some "app1")])
        (ueFallback demoEnv ({ Pdr.zero with srcIface := 1, srcIfaceMask := 0xFF }, []))
        = .returned b2 none ∧
      parsePDI demoEnv ([.sourceInterface (some 0)] ++ .applicationID (some "app1") :: [])
        demoRegistry Pdr.zero
        = filterLoop demoEnv demoRegistry
            (({ Pdr.zero with srcIface := 1, srcIfaceMask := 0xFF }, []) : Pdr × List Nat).2
            [] b2 ∧
      ((6 : Nat) ≠ demoEnv.reservedProto → b2.proto = 6 ∧ b2.protoMask = 0xFF) ∧
      ((6 : Nat) = demoEnv.reservedProto →
        b2.proto = ({ Pdr.zero with srcIface := 1, srcIfaceMask := 0xFF } : Pdr).proto ∧
        b2.protoMask
          = ({ Pdr.zero with srcIface := 1, srcIfaceMask := 0xFF } : Pdr).protoMask) :=
  parsePDI_filter_proto demoEnv rfl [.sourceInterface (some 0)]
    (.applicationID (some "app1")) [] demoRegistry Pdr.zero
    { Pdr.zero with srcIface := 1, srcIfaceMask := 0xFF }
    ⟨"out", 6, ⟨⟨[10, 0, 0, 0], [255, 255, 255, 0]⟩⟩, ⟨⟨[20, 0, 0, 0], [255, 255, 255, 0]⟩⟩⟩
    ({ Pdr.zero with srcIface := 1, srcIfaceMask := 0xFF }, []) (by decide)
    (by decide)
    (Or.inr ⟨"app1", ["tcp-in"], "tcp-out", ["bad"], rfl, by decide,
      by
        intro y hy
        rw [List.mem_singleton] at hy
        subst hy
        exact ⟨⟨"in", 6, ⟨⟨[30, 0, 0, 0], [255, 255, 0, 0]⟩⟩,
          ⟨⟨[40, 0, 0, 0], [255, 255, 0, 0]⟩⟩⟩, by decide, by decide⟩,
      by decide, by decide⟩)

/-! ## `parsePDR`: finalization, decapsulation flag, decode failures -/

/-- C11: when the rule identifier, precedence, PDI and FAR ID of the PDR element decode
and `parsePDI` succeeds, `parsePDR` returns nil and the rule has the decoded precedence,
the decoded rule identifier (a `uint16` widened, so unchanged), the decoded FAR ID,
`ctrID = 0` and `fseID` equal to the low 32 bits of the session identifier. -/
theorem parsePDR_finalizes (E : Env) (ie1 : PdrIE) (seid : Nat) (reg : Registry)
    (p r1 : Pdr) (pdrID precedence farID : Nat) (pdi : List PdiIE)
    (hid : ie1.PDRID = some pdrID) (hprec : ie1.Precedence = some precedence)
    (hpdi : ie1.PDI = some pdi) (hfar : ie1.FARID = some farID)
    (hok : parsePDI E pdi reg p = .returned r1 none) :
    ∃ r, parsePDR E ie1 seid reg p = .returned r none ∧
      r.precedence = precedence ∧ r.pdrID = pdrID ∧ r.farID = farID ∧ r.ctrID = 0 ∧
      r.fseID = seid % 2 ^ 32 := by
  refine ⟨_, parsePDR_after_parsePDI E ie1 seid reg p r1 none pdrID precedence pdi hid hprec
    hpdi hok, ?_⟩
  rw [hfar]
  exact ⟨rfl, rfl, rfl, rfl, rfl⟩

/-- Witness of C11: a session identifier above 32 bits is cut to its low 32 bits. -/
theorem parsePDR_finalizes_witness :
    ∃ r, parsePDR demoEnv
        ⟨some 9, some 100, some [.sourceInterface (some 0)], some 0, some 5⟩
        (2 ^ 32 + 7) demoRegistry Pdr.zero = .returned r none ∧
      r.precedence = 100 ∧ r.pdrID = 9 ∧ r.farID = 5 ∧ r.ctrID = 0 ∧
      r.fseID = (2 ^ 32 + 7) % 2 ^ 32 :=
  parsePDR_finalizes demoEnv
    ⟨some 9, some 100, some [.sourceInterface (some 0)], some 0, some 5⟩
    (2 ^ 32 + 7) demoRegistry Pdr.zero
    { Pdr.zero with srcIface := 1, srcIfaceMask := 0xFF } 9 100 5
    [.sourceInterface (some 0)] rfl rfl rfl rfl (by decide)

/-- C12: when `parsePDR` runs to finalization (the rule identifier, precedence, PDI and
FAR ID decode and `parsePDI` returns), `needDecap` is 1 exactly when the
outer-header-removal description decodes and is 0, and it is 0 in every other case. -/
theorem parsePDR_needDecap (E : Env) (ie1 : PdrIE) (seid : Nat) (reg : Registry)
    (p r1 : Pdr) (e1 : Option GoError) (pdrID precedence farID : Nat) (pdi : List PdiIE)
    (hid : ie1.PDRID = some pdrID) (hprec : ie1.Precedence = some precedence)
    (hpdi : ie1.PDI = some pdi) (hfar : ie1.FARID = some farID)
    (hret : parsePDI E pdi reg p = .returned r1 e1) :
    ∃ r, parsePDR E ie1 seid reg p = .returned r none ∧
      (r.needDecap = 1 ↔ ie1.OuterHeaderRemovalDescription = some 0) ∧
      (ie1.OuterHeaderRemovalDescription ≠ some 0 → r.needDecap = 0) := by
  refine ⟨_, parsePDR_after_parsePDI E ie1 seid reg p r1 e1 pdrID precedence pdi hid hprec
    hpdi hret, ?_⟩
  rw [hfar]
  by_cases h : ie1.OuterHeaderRemovalDescription = some 0
  · simp [h]
  · simp [h]

/-- Witness of C12: a description that decodes as 1 leaves the flag clear. -/
theorem parsePDR_needDecap_witness :
    ∃ r, parsePDR demoEnv
        ⟨some 9, some 100, some [.sourceInterface (some 0)], some 1, some 5⟩
        7 demoRegistry Pdr.zero = .returned r none ∧
      (r.needDecap = 1 ↔ (some 1 : Option Nat) = some 0) ∧
      ((some 1 : Option Nat) ≠ some 0 → r.needDecap = 0) :=
  parsePDR_needDecap demoEnv
    ⟨some 9, some 100, some [.sourceInterface (some 0)], some 1, some 5⟩
    7 demoRegistry Pdr.zero
    { Pdr.zero with srcIface := 1, srcIfaceMask := 0xFF } none 9 100 5
    [.sourceInterface (some 0)] rfl rfl rfl rfl (by decide)

/-- C13: if reading the rule identifier, the precedence or the PDI of the PDR element
fails, `parsePDR` returns nil and leaves the rule as it was. -/
theorem parsePDR_decode_failure (E : Env) (ie1 : PdrIE) (seid : Nat) (reg : Registry)
    (p : Pdr)
    (h : ie1.PDRID = none ∨ ie1.Precedence = none ∨ ie1.PDI = none) :
    parsePDR E ie1 seid reg p = .returned p none := by
  unfold parsePDR
  cases h1 : ie1.PDRID with
  | none => rfl
  | some pdrID =>
    cases h2 : ie1.Precedence with
    | none => rfl
    | some precedence =>
      cases h3 : ie1.PDI with
      | none => rfl
      | some pdi =>
        rw [h1, h2, h3] at h
        simp at h

/-- Witness of C13: a PDR element whose precedence does not decode. -/
theorem parsePDR_decode_failure_witness :
    parsePDR demoEnv ⟨some 9, none, some [.sourceInterface (some 0)], some 0, some 5⟩ 7
      demoRegistry Pdr.zero = .returned Pdr.zero none :=
  parsePDR_decode_failure demoEnv
    ⟨some 9, none, some [.sourceInterface (some 0)], some 0, some 5⟩ 7 demoRegistry Pdr.zero
    (Or.inr (Or.inl rfl))

/-- C14, as stated, fails: on a PDR element whose FAR ID does not decode, `parsePDR`
returns nil but the rule is not the zero rule it started from: `parsePDI` has run and
has set the interface and the tunnel fields. -/
theorem parsePDR_farID_counterexample :
    parsePDR demoEnv
        ⟨some 9, some 100,
          some [.sourceInterface (some 0), .fteid (some ⟨77, [192, 168, 0, 1]⟩)],
          some 0, none⟩
        7 demoRegistry Pdr.zero
      = .returned
          { Pdr.zero with
              srcIface := 1, srcIfaceMask := 0xFF, tunnelTEID := 77,
              tunnelTEIDMask := 0xFFFFFFFF, tunnelIP4Dst := 3232235521,
              tunnelIP4DstMask := 0xFFFFFFFF }
          none ∧
    ({ Pdr.zero with
        srcIface := 1, srcIfaceMask := 0xFF, tunnelTEID := 77,
        tunnelTEIDMask := 0xFFFFFFFF, tunnelIP4Dst := 3232235521,
        tunnelIP4DstMask := 0xFFFFFFFF } : Pdr) ≠ Pdr.zero := by
  constructor <;> decide

/-- C14, amended: if reading the FAR ID fails while the rule identifier, precedence and
PDI decode, then, whenever `parsePDI` returns, `parsePDR` returns nil without finalizing:
the rule is the one `parsePDI` left, in which the ports, precedence, `pdrID`, `fseID`,
`ctrID`, `farID` and `needDecap` are as before the call. -/
theorem parsePDR_farID_failure (E : Env) (ie1 : PdrIE) (seid : Nat) (reg : Registry)
    (p r1 : Pdr) (e1 : Option GoError) (pdrID precedence : Nat) (pdi : List PdiIE)
    (hid : ie1.PDRID = some pdrID) (hprec : ie1.Precedence = some precedence)
    (hpdi : ie1.PDI = some pdi) (hfar : ie1.FARID = none)
    (hret : parsePDI E pdi reg p = .returned r1 e1) :
    parsePDR E ie1 seid reg p = .returned r1 none ∧
      r1.srcPort = p.srcPort ∧ r1.dstPort = p.dstPort ∧ r1.srcPortMask = p.srcPortMask ∧
      r1.dstPortMask = p.dstPortMask ∧ r1.precedence = p.precedence ∧
      r1.pdrID = p.pdrID ∧ r1.fseID = p.fseID ∧ r1.ctrID = p.ctrID ∧
      r1.farID = p.farID ∧ r1.needDecap = p.needDecap := by
  have key := parsePDR_after_parsePDI E ie1 seid reg p r1 e1 pdrID precedence pdi hid hprec
    hpdi hret
  rw [hfar] at key
  exact ⟨key, parsePDI_kept E pdi reg p r1 e1 hret⟩

/-- Witness of C14 amended: the PDR element of the counterexample. -/
theorem parsePDR_farID_failure_witness :
    parsePDR demoEnv
        ⟨some 9, some 100,
          some [.sourceInterface (some 0), .fteid (some ⟨77, [192, 168, 0, 1]⟩)],
          some 0, none⟩
        7 demoRegistry Pdr.zero
      = .returned
          { Pdr.zero with
              srcIface := 1, srcIfaceMask := 0xFF, tunnelTEID := 77,
              tunnelTEIDMask := 0xFFFFFFFF, tunnelIP4Dst := 3232235521,
              tunnelIP4DstMask := 0xFFFFFFFF }
          none :=
  (parsePDR_farID_failure demoEnv
    ⟨some 9, some 100,
      some [.sourceInterface (some 0), .fteid (some ⟨77, [192, 168, 0, 1]⟩)],
      some 0, none⟩
    7 demoRegistry Pdr.zero
    { Pdr.zero with
        srcIface := 1, srcIfaceMask := 0xFF, tunnelTEID := 77,
        tunnelTEIDMask := 0xFFFFFFFF, tunnelIP4Dst := 3232235521,
        tunnelIP4DstMask := 0xFFFFFFFF }
    none 9 100 [.sourceInterface (some 0), .fteid (some ⟨77, [192, 168, 0, 1]⟩)]
    rfl rfl rfl rfl (by decide)).1

/-! ## Outcomes of `parsePDI` and `parsePDR`, and the fields they leave alone -/

/-- C17: the code breaks the claim.  With the empty registry, which is consistent, the
PDI made of an F-TEID with TEID 77 and no IPv4 address and of an SDF filter whose
description the parser rejects holds a triggering element, yet `parsePDI` does not fail
with `errBadFilterDesc`: `ip2int` panics in the first loop (line 107).  The same PDI
without the SDF filter holds no filter element, and `parsePDI` does not return nil on it
either. -/
theorem parsePDI_panics_despite_trigger :
    RegistryConsistent (fun _ => none) ∧
    Triggering demoEnv (fun _ => none) [] Pdr.zero (.sdfFilter (some ⟨"bad"⟩)) ∧
    parsePDI demoEnv [.fteid (some ⟨77, []⟩), .sdfFilter (some ⟨"bad"⟩)] (fun _ => none)
        Pdr.zero
      = .panicked { Pdr.zero with tunnelTEID := 77, tunnelTEIDMask := 0xFFFFFFFF } ∧
    parsePDI demoEnv [.fteid (some ⟨77, []⟩)] (fun _ => none) Pdr.zero
      = .panicked { Pdr.zero with tunnelTEID := 77, tunnelTEIDMask := 0xFFFFFFFF } := by
  refine ⟨fun _ _ h => by simp at h, ⟨by decide, by decide⟩, by decide, by decide⟩

/-- With a consistent registry, when the first loop is done, leaving `st`, `parsePDI`
fails with `errBadFilterDesc` exactly when the PDI holds a triggering element (for the
captured UE address and the interface of the rule after the first loop), and returns nil
exactly when it holds none.  A triggering element is a decodable SDF filter with a
non-empty description or a decodable application identifier that the registry holds. -/
theorem parsePDI_error_iff_of_done (E : Env) (ies : List PdiIE) (reg : Registry)
    (hreg : RegistryConsistent reg) (p : Pdr) (st : Pdr × List Nat)
    (hext : extractLoop E ies (p, []) = .done st) :
    ((∃ r, parsePDI E ies reg p = .returned r (some .errBadFilterDesc)) ↔
      ∃ x ∈ ies, Triggering E reg st.2 (ueFallback E st) x) ∧
    ((∃ r, parsePDI E ies reg p = .returned r none) ↔
      ¬ ∃ x ∈ ies, Triggering E reg st.2 (ueFallback E st) x) ∧
    (∀ ue b x, Triggering E reg ue b x →
      (∃ d, x = .sdfFilter (some ⟨d⟩) ∧ d ≠ "") ∨
        ∃ appID apfd, x = .applicationID (some appID) ∧ reg appID = some apfd) := by
  have h := filterLoop_error_iff E reg hreg st.2 (ueFallback E st) ies (ueFallback E st) rfl
  have hp := parsePDI_of_done E ies reg p st hext
  refine ⟨?_, ?_, ?_⟩
  · rcases h with ⟨ht, hr⟩ | ⟨hnt, r, hr⟩
    · rw [hp]
      exact ⟨fun _ => ht, fun _ => hr⟩
    · rw [hp, hr]
      constructor
      · rintro ⟨r2, h2⟩
        simp at h2
      · intro ht
        exact absurd ht hnt
  · rcases h with ⟨ht, r, hr⟩ | ⟨hnt, hr⟩
    · rw [hp, hr]
      constructor
      · rintro ⟨r2, h2⟩
        simp at h2
      · intro hnt
        exact absurd ht hnt
    · rw [hp]
      exact ⟨fun _ => hnt, fun _ => hr⟩
  · intro ue b x hx
    cases x with
    | applicationID dec =>
      cases dec with
      | none => exact hx.elim
      | some appID =>
        obtain ⟨apfd, hr, _⟩ := hx
        exact Or.inr ⟨appID, apfd, rfl, hr⟩
    | sdfFilter dec =>
      cases dec with
      | none => exact hx.elim
      | some sdf => exact Or.inl ⟨sdf.FlowDescription, rfl, hx.1⟩
    | ueIPAddress dec => exact hx.elim
    | sourceInterface dec => exact hx.elim
    | fteid dec => exact hx.elim
    | qfi => exact hx.elim
    | other t => exact hx.elim

/-- C18: `parsePDI` ends the process through `log.Fatalln` exactly when the first loop
is done and the second loop, having processed the elements before it without error,
reaches a decodable application identifier whose lookup succeeds with a record stored
under another identifier; with a consistent registry this does not happen, for any
PDI. -/
theorem parsePDI_fatal_iff (E : Env) (ies : List PdiIE) (reg : Registry) (p : Pdr) :
    (parsePDI E ies reg p = .fatal ↔
      ∃ st, extractLoop E ies (p, []) = .done st ∧
        ∃ pre x post b1, ies = pre ++ x :: post ∧
          filterLoop E reg st.2 pre (ueFallback E st) = .returned b1 none ∧
          Mismatched reg x) ∧
    (RegistryConsistent reg → parsePDI E ies reg p ≠ .fatal) := by
  have hiff : parsePDI E ies reg p = .fatal ↔
      ∃ st, extractLoop E ies (p, []) = .done st ∧
        ∃ pre x post b1, ies = pre ++ x :: post ∧
          filterLoop E reg st.2 pre (ueFallback E st) = .returned b1 none ∧
          Mismatched reg x := by
    cases hx : extractLoop E ies (p, []) with
    | panicked q =>
      simp only [parsePDI, hx]
      constructor
      · intro h
        cases h
      · rintro ⟨st, hst, _⟩
        cases hst
    | done st =>
      rw [parsePDI_of_done E ies reg p st hx, filterLoop_fatal_iff]
      constructor
      · intro h
        exact ⟨st, rfl, h⟩
      · rintro ⟨st2, hst, h⟩
        simp only [Extracted.done.injEq] at hst
        subst hst
        exact h
  refine ⟨hiff, ?_⟩
  intro hreg hf
  obtain ⟨_, _, _, x, _, _, _, _, hx⟩ := hiff.1 hf
  exact not_mismatched_of_consistent reg hreg x hx

/-- Witness of C18: the record found under `app3` is stored with another identifier, and
the process ends although a rejected SDF filter comes later in the PDI. -/
theorem parsePDI_fatal_iff_witness :
    parsePDI demoEnv
      [.sourceInterface (some 0), .applicationID (some "app3"), .sdfFilter (some ⟨"bad"⟩)]
      demoRegistry Pdr.zero = .fatal :=
  (parsePDI_fatal_iff demoEnv
    [.sourceInterface (some 0), .applicationID (some "app3"), .sdfFilter (some ⟨"bad"⟩)]
    demoRegistry Pdr.zero).1.2
    ⟨({ Pdr.zero with srcIface := 1, srcIfaceMask := 0xFF }, []), by decide,
      [.sourceInterface (some 0)], .applicationID (some "app3"),
      [.sdfFilter (some ⟨"bad"⟩)],
      { Pdr.zero with srcIface := 1, srcIfaceMask := 0xFF }, rfl, by decide,
      "app3", ⟨"wrong", []⟩, rfl, by decide, by decide⟩

/-- C19: the code breaks the claim.  With the empty registry, which is consistent, on a
PDR element whose PDI holds an F-TEID with TEID 77 and no IPv4 address, `parsePDR` does
not return nil: `ip2int` panics inside `parsePDI` (line 107) and `parsePDR` does not
return. -/
theorem parsePDR_panics_at_fteid :
    RegistryConsistent (fun _ => none) ∧
    parsePDR demoEnv ⟨some 9, some 100, some [.fteid (some ⟨77, []⟩)], none, some 5⟩ 7
        (fun _ => none) Pdr.zero
      = .panicked { Pdr.zero with tunnelTEID := 77, tunnelTEIDMask := 0xFFFFFFFF } := by
  refine ⟨fun _ _ h => by simp at h, by decide⟩

/-- Whenever `parsePDR` returns, the error is nil: the branch of line 242 is not
taken. -/
theorem parsePDR_error_nil (E : Env) (ie1 : PdrIE) (seid : Nat) (reg : Registry)
    (p r : Pdr) (e : Option GoError) (h : parsePDR E ie1 seid reg p = .returned r e) :
    e = none := by
  cases h1 : ie1.PDRID with
  | none =>
    rw [parsePDR_early_return E ie1 seid reg p (Or.inl h1)] at h
    simp only [Outcome.returned.injEq] at h
    exact h.2.symm
  | some pdrID =>
    cases h2 : ie1.Precedence with
    | none =>
      rw [parsePDR_early_return E ie1 seid reg p (Or.inr (Or.inl h2))] at h
      simp only [Outcome.returned.injEq] at h
      exact h.2.symm
    | some precedence =>
      cases h3 : ie1.PDI with
      | none =>
        rw [parsePDR_early_return E ie1 seid reg p (Or.inr (Or.inr h3))] at h
        simp only [Outcome.returned.injEq] at h
        exact h.2.symm
      | some pdi =>
        cases h4 : parsePDI E pdi reg p with
        | fatal =>
          unfold parsePDR at h
          rw [h1, h2, h3] at h
          simp only [h4] at h
          cases h
        | panicked q =>
          unfold parsePDR at h
          rw [h1, h2, h3] at h
          simp only [h4] at h
          cases h
        | returned r1 e1 =>
          rw [parsePDR_after_parsePDI E ie1 seid reg p r1 e1 pdrID precedence pdi h1 h2 h3
            h4] at h
          simp only [Outcome.returned.injEq] at h
          exact h.2.symm

/-- C20: whenever `parsePDI` returns, the ports and port masks, the precedence, `pdrID`,
`fseID`, `ctrID`, `farID` and `needDecap` of the rule are as before the call; whenever
`parsePDR` returns, the ports and port masks are as before the call. -/
theorem ports_never_modified (E : Env) (ies : List PdiIE) (ie1 : PdrIE) (seid : Nat)
    (reg : Registry) (p : Pdr) :
    (∀ r e, parsePDI E ies reg p = .returned r e →
      r.srcPort = p.srcPort ∧ r.dstPort = p.dstPort ∧ r.srcPortMask = p.srcPortMask ∧
      r.dstPortMask = p.dstPortMask ∧ r.precedence = p.precedence ∧ r.pdrID = p.pdrID ∧
      r.fseID = p.fseID ∧ r.ctrID = p.ctrID ∧ r.farID = p.farID ∧
      r.needDecap = p.needDecap) ∧
    (∀ r e, parsePDR E ie1 seid reg p = .returned r e →
      r.srcPort = p.srcPort ∧ r.dstPort = p.dstPort ∧ r.srcPortMask = p.srcPortMask ∧
      r.dstPortMask = p.dstPortMask) := by
  refine ⟨fun r e h => parsePDI_kept E ies reg p r e h, ?_⟩
  intro r e h
  cases h1 : ie1.PDRID with
  | none =>
    rw [parsePDR_early_return E ie1 seid reg p (Or.inl h1)] at h
    simp only [Outcome.returned.injEq] at h
    rw [← h.1]
    exact ⟨rfl, rfl, rfl, rfl⟩
  | some pdrID =>
    cases h2 : ie1.Precedence with
    | none =>
      rw [parsePDR_early_return E ie1 seid reg p (Or.inr (Or.inl h2))] at h
      simp only [Outcome.returned.injEq] at h
      rw [← h.1]
      exact ⟨rfl, rfl, rfl, rfl⟩
    | some precedence =>
      cases h3 : ie1.PDI with
      | none =>
        rw [parsePDR_early_return E ie1 seid reg p (Or.inr (Or.inr h3))] at h
        simp only [Outcome.returned.injEq] at h
        rw [← h.1]
        exact ⟨rfl, rfl, rfl, rfl⟩
      | some pdi =>
        cases h4 : parsePDI E pdi reg p with
        | fatal =>
          unfold parsePDR at h
          rw [h1, h2, h3] at h
          simp only [h4] at h
          cases h
        | panicked q =>
          unfold parsePDR at h
          rw [h1, h2, h3] at h
          simp only [h4] at h
          cases h
        | returned r1 e1 =>
          obtain ⟨a1, a2, a3, a4, -⟩ := parsePDI_kept E pdi reg p r1 e1 h4
          rw [parsePDR_after_parsePDI E ie1 seid reg p r1 e1 pdrID precedence pdi h1 h2 h3
            h4] at h
          simp only [Outcome.returned.injEq] at h
          rw [← h.1]
          cases ie1.FARID with
          | none => exact ⟨a1, a2, a3, a4⟩
          | some farID => exact ⟨a1, a2, a3, a4⟩

/-- Witness of C20: on a rule with ports set, a PDI with a UE address and an SDF filter
leaves them. -/
theorem ports_never_modified_witness :
    ({ Pdr.zero with
        srcPort := 80, dstPort := 443, srcPortMask := 0xFFFF, dstPortMask := 0xFFFF,
        srcIface := 2, srcIfaceMask := 0xFF, srcIP := 167772160, srcIPMask := 4294967040,
        dstIP := 335544320, dstIPMask := 4294967040, proto := 6, protoMask := 0xFF }
      : Pdr).srcPort = 80 :=
  ((ports_never_modified demoEnv
    [.sourceInterface (some 1), .ueIPAddress (some ⟨[10, 1, 2, 3]⟩),
      .sdfFilter (some ⟨"tcp-out"⟩)]
    ⟨none, none, none, none, none⟩ 0 demoRegistry
    { Pdr.zero with
        srcPort := 80, dstPort := 443, srcPortMask := 0xFFFF, dstPortMask := 0xFFFF }).1
    { Pdr.zero with
        srcPort := 80, dstPort := 443, srcPortMask := 0xFFFF, dstPortMask := 0xFFFF,
        srcIface := 2, srcIfaceMask := 0xFF, srcIP := 167772160, srcIPMask := 4294967040,
        dstIP := 335544320, dstIPMask := 4294967040, proto := 6, protoMask := 0xFF }
    none (by decide)).1

/-! ## Order of the PDI elements -/

/-- C15: on two PDI lists that are permutations of each other and hold at most one UE IP
address, one source interface, one F-TEID, one QFI and one filter element (SDF filter or
application identifier), `parsePDI` has the same outcome, rule and error, for every
registry, parser and initial rule; when it panics it does so on both lists (the rule at
the panic depends on the order). -/
theorem parsePDI_order_independent (E : Env) (ies1 ies2 : List PdiIE) (reg : Registry)
    (p : Pdr) (hperm : ies1.Perm ies2) (hnd : NoDuplicates ies1) :
    parsePDI E ies1 reg p = parsePDI E ies2 reg p ∨
      ((∃ q, parsePDI E ies1 reg p = .panicked q) ∧
        ∃ q, parsePDI E ies2 reg p = .panicked q) := by
  by_cases hn : NoPanic E ies1
  · have hn2 : NoPanic E ies2 := fun e he => hn e (hperm.symm.subset he)
    left
    rw [parsePDI_of_noPanic E ies1 reg p hn, parsePDI_of_noPanic E ies2 reg p hn2,
      extractLoopVal_perm E ies1 ies2 hperm hnd (p, []),
      filterLoop_filterElems E reg _ ies1, filterLoop_filterElems E reg _ ies2,
      filterElems_perm ies1 ies2 hperm hnd.2.2.2.2]
  · have hn2 : ¬ NoPanic E ies2 := fun h2 => hn (fun e he => h2 e (hperm.subset he))
    exact Or.inr ⟨parsePDI_of_panic E ies1 reg p hn, parsePDI_of_panic E ies2 reg p hn2⟩

/-- Witness of C15: four elements and their reversal. -/
theorem parsePDI_order_independent_witness :
    parsePDI demoEnv
        [.sourceInterface (some 0), .ueIPAddress (some ⟨[10, 1, 2, 3]⟩),
          .fteid (some ⟨77, [192, 168, 0, 1]⟩), .sdfFilter (some ⟨"tcp-out"⟩)]
        demoRegistry Pdr.zero
      = parsePDI demoEnv
        [.sdfFilter (some ⟨"tcp-out"⟩), .fteid (some ⟨77, [192, 168, 0, 1]⟩),
          .ueIPAddress (some ⟨[10, 1, 2, 3]⟩), .sourceInterface (some 0)]
        demoRegistry Pdr.zero ∨
      ((∃ q, parsePDI demoEnv
          [.sourceInterface (some 0), .ueIPAddress (some ⟨[10, 1, 2, 3]⟩),
            .fteid (some ⟨77, [192, 168, 0, 1]⟩), .sdfFilter (some ⟨"tcp-out"⟩)]
          demoRegistry Pdr.zero = .panicked q) ∧
        ∃ q, parsePDI demoEnv
          [.sdfFilter (some ⟨"tcp-out"⟩), .fteid (some ⟨77, [192, 168, 0, 1]⟩),
            .ueIPAddress (some ⟨[10, 1, 2, 3]⟩), .sourceInterface (some 0)]
          demoRegistry Pdr.zero = .panicked q) :=
  parsePDI_order_independent demoEnv
    [.sourceInterface (some 0), .ueIPAddress (some ⟨[10, 1, 2, 3]⟩),
      .fteid (some ⟨77, [192, 168, 0, 1]⟩), .sdfFilter (some ⟨"tcp-out"⟩)]
    [.sdfFilter (some ⟨"tcp-out"⟩), .fteid (some ⟨77, [192, 168, 0, 1]⟩),
      .ueIPAddress (some ⟨[10, 1, 2, 3]⟩), .sourceInterface (some 0)]
    demoRegistry Pdr.zero (List.reverse_perm _).symm
    (by unfold NoDuplicates AtMostOne; decide)

/-- C16, as stated, fails on the protocol: on an access-side PDI with the application
identifier `app1` (whose applied description has protocol 6) followed by an SDF filter
whose protocol is the `any` value, the rule keeps protocol 6 with mask `0xFF`, while the
same PDI without the application identifier leaves the protocol and its mask at zero. -/
theorem later_filter_counterexample :
    parsePDI demoEnv
        [.sourceInterface (some 0), .applicationID (some "app1"),
          .sdfFilter (some ⟨"any-out"⟩)]
        demoRegistry Pdr.zero
      = .returned
          { Pdr.zero with
              srcIface := 1, srcIfaceMask := 0xFF, srcIP := 1006632960,
              srcIPMask := 4278190080, dstIP := 838860800, dstIPMask := 4278190080,
              proto := 6, protoMask := 0xFF }
          none ∧
    parsePDI demoEnv [.sourceInterface (some 0), .sdfFilter (some ⟨"any-out"⟩)]
        demoRegistry Pdr.zero
      = .returned
          { Pdr.zero with
              srcIface := 1, srcIfaceMask := 0xFF, srcIP := 1006632960,
              srcIPMask := 4278190080, dstIP := 838860800, dstIPMask := 4278190080 }
          none := by
  constructor <;> decide

/-- C16, amended: on a PDI on which the first loop is done, leaving `st`, whose decodable
source-interface elements all carry `v`, access-side or core-side, and whose filter
elements are `x` and, later, `y`, with the second loop applying the parsed filter `f1` at
`x` and `f2` at `y`: `parsePDI` returns nil, and the source and destination address and
mask of the rule `r` are those of the rule `r2` that `parsePDI` leaves on the PDI without
`x`.  The protocol value and mask of `r` are those of `r2` when the protocol of `f2` is
not `reservedProto`; when it is, they are those of the rule `r1` that `parsePDI` leaves
on the PDI without `y`. -/
theorem later_filter_wins (E : Env) (A B : List PdiIE) (x y : PdiIE) (reg : Registry)
    (p : Pdr) (v : Nat) (f1 f2 : IpFilterRule)
    (st : Pdr × List Nat) (hext : extractLoop E (A ++ x :: B) (p, []) = .done st)
    (hv : v = SrcInterfaceAccess ∨ v = SrcInterfaceCore)
    (hall : ∀ w, PdiIE.sourceInterface (some w) ∈ A ++ x :: B → w = v)
    (hmem : PdiIE.sourceInterface (some v) ∈ A ++ x :: B)
    (hA : A.filter PdiIE.isFilterElem = [])
    (hB : B.filter PdiIE.isFilterElem = [y])
    (hx : AppliesFilter E reg st.2 x (ueFallback E st) f1)
    (hy : AppliesFilter E reg st.2 y (ueFallback E st) f2) :
    ∃ r r2 r1,
      parsePDI E (A ++ x :: B) reg p = .returned r none ∧
      parsePDI E (A ++ B) reg p = .returned r2 none ∧
      parsePDI E (A ++ x :: B.filter fun e => !e.isFilterElem) reg p = .returned r1 none ∧
      r.srcIP = r2.srcIP ∧ r.srcIPMask = r2.srcIPMask ∧
      r.dstIP = r2.dstIP ∧ r.dstIPMask = r2.dstIPMask ∧
      (f2.proto ≠ E.reservedProto → r.proto = r2.proto ∧ r.protoMask = r2.protoMask) ∧
      (f2.proto = E.reservedProto → r.proto = r1.proto ∧ r.protoMask = r1.protoMask) := by
  obtain ⟨hn, hst⟩ := extractLoop_done E (A ++ x :: B) (p, []) st hext
  subst hst
  have hn2 : NoPanic E (A ++ B) := by
    intro e he
    apply hn e
    rcases List.mem_append.1 he with h | h
    · exact List.mem_append.2 (Or.inl h)
    · exact List.mem_append.2 (Or.inr (List.mem_cons_of_mem _ h))
  have hn1 : NoPanic E (A ++ x :: B.filter fun e => !e.isFilterElem) := by
    intro e he
    apply hn e
    rcases List.mem_append.1 he with h | h
    · exact List.mem_append.2 (Or.inl h)
    · rcases List.mem_cons.1 h with rfl | h
      · exact List.mem_append.2 (Or.inr (List.mem_cons_self _ _))
      · exact List.mem_append.2 (Or.inr (List.mem_cons_of_mem _ (List.mem_filter.1 h).1))
  have hxf := appliesFilter_isFilterElem E reg _ x _ f1 hx
  have hext2 : extractLoopVal E (A ++ B) (p, []) = extractLoopVal E (A ++ x :: B) (p, []) :=
    (extractLoopVal_remove_filterElem E A B x hxf (p, [])).symm
  have hext1 : extractLoopVal E (A ++ x :: B.filter fun e => !e.isFilterElem) (p, [])
      = extractLoopVal E (A ++ x :: B) (p, []) := by
    rw [extractLoopVal_drop_filterElems E (A ++ x :: B),
      extractLoopVal_drop_filterElems E (A ++ x :: B.filter fun e => !e.isFilterElem)]
    simp [List.filter_append, List.filter_cons, hxf, List.filter_filter]
  have hflt : (A ++ x :: B).filter PdiIE.isFilterElem = [x, y] := by
    simp [List.filter_append, List.filter_cons, hxf, hA, hB]
  have hflt2 : (A ++ B).filter PdiIE.isFilterElem = [y] := by
    simp [List.filter_append, hA, hB]
  have hflt1 : (A ++ x :: B.filter fun e => !e.isFilterElem).filter PdiIE.isFilterElem
      = [x] := by
    simp [List.filter_append, List.filter_cons, hxf, hA, List.filter_filter]
  have hi : (ueFallback E (extractLoopVal E (A ++ x :: B) (p, []))).srcIface = E.access ∨
      (ueFallback E (extractLoopVal E (A ++ x :: B) (p, []))).srcIface = E.core := by
    have := srcIface_after_extract E v hv (A ++ x :: B) hall hmem (p, [])
    rcases hv with rfl | rfl
    · exact Or.inl (by simpa using this)
    · have hc : ¬ SrcInterfaceCore = SrcInterfaceAccess := by decide
      exact Or.inr (by simpa [hc] using this)
  have hsx := applyElem_srcIface E x f1
    (ueFallback E (extractLoopVal E (A ++ x :: B) (p, [])))
  have hy1 := appliesFilter_congr E reg _ y _ _ hsx.symm f2 hy
  refine ⟨applyElem E y f2
      (applyElem E x f1 (ueFallback E (extractLoopVal E (A ++ x :: B) (p, [])))),
    applyElem E y f2 (ueFallback E (extractLoopVal E (A ++ x :: B) (p, []))),
    applyElem E x f1 (ueFallback E (extractLoopVal E (A ++ x :: B) (p, []))),
    ?_, ?_, ?_, ?_⟩
  · rw [parsePDI_of_noPanic E _ reg p hn, filterLoop_filterElems, hflt, filterLoop_cons_eq,
      filterLoop_single_applies E reg _ x _ f1 hx]
    exact filterLoop_single_applies E reg _ y _ f2 hy1
  · rw [parsePDI_of_noPanic E _ reg p hn2, hext2, filterLoop_filterElems, hflt2]
    exact filterLoop_single_applies E reg _ y _ f2 hy
  · rw [parsePDI_of_noPanic E _ reg p hn1, hext1, filterLoop_filterElems, hflt1]
    exact filterLoop_single_applies E reg _ x _ f1 hx
  · obtain ⟨a1, a2, a3, a4⟩ := applyElem_addresses E y f2
      (applyElem E x f1 (ueFallback E (extractLoopVal E (A ++ x :: B) (p, []))))
      (ueFallback E (extractLoopVal E (A ++ x :: B) (p, []))) hsx hi
    refine ⟨a1, a2, a3, a4, ?_, ?_⟩
    · intro hne
      obtain ⟨b1, b2⟩ := (applyElem_proto E y f2
        (applyElem E x f1 (ueFallback E (extractLoopVal E (A ++ x :: B) (p, []))))).1 hne
      obtain ⟨c1, c2⟩ := (applyElem_proto E y f2
        (ueFallback E (extractLoopVal E (A ++ x :: B) (p, [])))).1 hne
      exact ⟨b1.trans c1.symm, b2.trans c2.symm⟩
    · intro heq
      exact (applyElem_proto E y f2
        (applyElem E x f1 (ueFallback E (extractLoopVal E (A ++ x :: B) (p, []))))).2 heq

/-- Witness of C16 amended: the PDI of the counterexample. -/
theorem later_filter_wins_witness :
    ∃ r r2 r1,
      parsePDI demoEnv
        ([.sourceInterface (some 0)] ++ .applicationID (some "app1")
          :: [.sdfFilter (some ⟨"any-out"⟩)]) demoRegistry Pdr.zero = .returned r none ∧
      parsePDI demoEnv ([.sourceInterface (some 0)] ++ [.sdfFilter (some ⟨"any-out"⟩)])
        demoRegistry Pdr.zero = .returned r2 none ∧
      parsePDI demoEnv
        ([.sourceInterface (some 0)] ++ .applicationID (some "app1")
          :: [PdiIE.sdfFilter (some ⟨"any-out"⟩)].filter fun e => !e.isFilterElem)
        demoRegistry Pdr.zero = .returned r1 none ∧
      r.srcIP = r2.srcIP ∧ r.srcIPMask = r2.srcIPMask ∧
      r.dstIP = r2.dstIP ∧ r.dstIPMask = r2.dstIPMask ∧
      ((255 : Nat) ≠ demoEnv.reservedProto → r.proto = r2.proto ∧ r.protoMask = r2.protoMask) ∧
      ((255 : Nat) = demoEnv.reservedProto →
        r.proto = r1.proto ∧ r.protoMask = r1.protoMask) :=
  later_filter_wins demoEnv [.sourceInterface (some 0)] [.sdfFilter (some ⟨"any-out"⟩)]
    (.applicationID (some "app1")) (.sdfFilter (some ⟨"any-out"⟩)) demoRegistry Pdr.zero 0
    ⟨"out", 6, ⟨⟨[10, 0, 0, 0], [255, 255, 255, 0]⟩⟩, ⟨⟨[20, 0, 0, 0], [255, 255, 255, 0]⟩⟩⟩
    ⟨"out", 255, ⟨⟨[50, 0, 0, 0], [255, 0, 0, 0]⟩⟩, ⟨⟨[60, 0, 0, 0], [255, 0, 0, 0]⟩⟩⟩
    ({ Pdr.zero with srcIface := 1, srcIfaceMask := 0xFF }, []) (by decide)
    (by decide) (by simp) (by simp) (by decide) (by decide)
    (Or.inr ⟨"app1", ["tcp-in"], "tcp-out", ["bad"], rfl, by decide,
      by
        intro z hz
        rw [List.mem_singleton] at hz
        subst hz
        exact ⟨⟨"in", 6, ⟨⟨[30, 0, 0, 0], [255, 255, 0, 0]⟩⟩,
          ⟨⟨[40, 0, 0, 0], [255, 255, 0, 0]⟩⟩⟩, by decide, by decide⟩,
      by decide, by decide⟩)
    (Or.inl ⟨"any-out", rfl, by decide, by decide⟩)

end ParsePdr
